import Mathlib

/-!
Verification of the FOUNDprint entropy-resolution and aggregation engine
(`foundprint.js`) against its natural-language specification.

The JavaScript source is shallowly embedded: market-share tables become
lists of string-keyed rational percentages, the lookup/fallback strategy,
pixel-ratio disambiguation and number formatting become Lean functions,
`JSON.stringify`-based fingerprint serialization becomes a function on an
inductive JSON value type, and the `runExperiment` accumulation loop
becomes a fold over probe outcomes.  Real-number formulas (`Math.log2`,
`Math.pow`) are embedded over `ℝ`.
-/

namespace Foundprint

/-! ### Section 1/2 of the source: configuration and market-share data.

`WORLD_POPULATION = 8.3e9` (foundprint.js line 167). -/

def WORLD_POPULATION : ℝ := 8300000000

/-- A market-share data object (`SCREEN_RESOLUTION_DATA` etc., foundprint.js
Section 2): a source URL, an insertion-ordered list of `value → percent`
entries, an optional `defaultPercent` (absent for `AD_BLOCKER_DATA`), and the
optional `estimated` flag read by `lookupMarketShare` as
`dataSource.estimated || false` (no table in the source sets it). -/
structure DataSource where
  source : String
  sourceLabel : String
  data : List (String × ℚ)
  defaultPercent : Option ℚ := none
  estimatedFlag : Bool := false
deriving Repr

def SCREEN_RESOLUTION_DATA : DataSource where
  source := "https://github.com/panopticlick/Panopticlick/blob/main/packages/valuation-engine/src/entropy.ts"
  sourceLabel := "Panopticlick POPULATION_STATS.screenResolutions"
  data := [("1920x1080", 23), ("1366x768", 19), ("1536x864", 8), ("1440x900", 5),
           ("1280x720", 4), ("2560x1440", 4), ("1600x900", 3), ("1280x800", 3),
           ("3840x2160", 2)]
  defaultPercent := some 1.0

def BROWSER_DATA : DataSource where
  source := "https://github.com/panopticlick/Panopticlick/blob/main/packages/valuation-engine/src/comparison.ts"
  sourceLabel := "Panopticlick POPULATION_DATA.browsers"
  data := [("Chrome", 65), ("Safari", 18), ("Edge", 5), ("Firefox", 3), ("Opera", 2)]
  defaultPercent := some 1.0

def GPU_DATA : DataSource where
  source := "https://store.steampowered.com/hwsurvey/directx/"
  sourceLabel := "Steam Hardware Survey (fallback)"
  data := [("NVIDIA GeForce RTX 3060", 8.32), ("NVIDIA GeForce RTX 4060", 7.92),
           ("NVIDIA GeForce RTX 3050", 5.92), ("NVIDIA GeForce GTX 1650", 5.60),
           ("NVIDIA GeForce RTX 4060 Ti", 5.26), ("NVIDIA GeForce RTX 3060 Ti", 4.78),
           ("NVIDIA GeForce RTX 3070", 4.48), ("AMD Radeon Graphics", 4.24),
           ("NVIDIA GeForce RTX 4070", 4.14), ("NVIDIA GeForce RTX 2060", 3.92),
           ("NVIDIA GeForce GTX 1060", 3.60), ("Intel Iris Xe", 3.52),
           ("Intel UHD Graphics", 2.0), ("AMD Radeon RX", 2.0),
           ("Apple M1", 1.5), ("Apple M2", 1.0), ("Apple M3", 0.8)]
  defaultPercent := some 0.5

def PIXEL_RATIO_DATA : DataSource where
  source := "https://github.com/panopticlick/Panopticlick/blob/main/packages/valuation-engine/src/entropy.ts"
  sourceLabel := "Panopticlick POPULATION_STATS.pixelRatios"
  data := [("1", 45), ("2", 30), ("1.25", 10), ("1.5", 8), ("3", 3), ("2.5", 2)]
  defaultPercent := some 2.0

def DNT_DATA : DataSource where
  source := "https://github.com/panopticlick/Panopticlick/blob/main/packages/valuation-engine/src/comparison.ts"
  sourceLabel := "Panopticlick POPULATION_DATA.privacyTools"
  data := [("1", 20), ("0", 3), ("null", 77)]
  defaultPercent := some 77

def CPU_CORES_DATA : DataSource where
  source := "https://github.com/panopticlick/Panopticlick/blob/main/packages/valuation-engine/src/entropy.ts"
  sourceLabel := "Panopticlick POPULATION_STATS.cpuCores"
  data := [("1", 1), ("2", 15), ("4", 35), ("6", 15), ("8", 20), ("12", 5), ("16", 5)]
  defaultPercent := some 4.0

def DEVICE_MEMORY_DATA : DataSource where
  source := "https://github.com/panopticlick/Panopticlick/blob/main/packages/valuation-engine/src/entropy.ts"
  sourceLabel := "Panopticlick POPULATION_STATS.deviceMemory"
  data := [("2", 5), ("4", 25), ("8", 45), ("16", 15), ("32", 5)]
  defaultPercent := some 5.0

def AD_BLOCKER_DATA : DataSource where
  source := "https://github.com/panopticlick/Panopticlick/blob/main/packages/valuation-engine/src/comparison.ts"
  sourceLabel := "Panopticlick POPULATION_DATA.privacyTools"
  data := [("true", 42), ("false", 58)]

def TIMEZONE_DATA : DataSource where
  source := "https://github.com/panopticlick/Panopticlick/blob/main/packages/valuation-engine/src/entropy.ts"
  sourceLabel := "Panopticlick POPULATION_STATS.timezones"
  data := [("America/New_York", 12), ("America/Los_Angeles", 10), ("America/Chicago", 8),
           ("Asia/Shanghai", 6), ("Europe/London", 5), ("Asia/Tokyo", 4),
           ("Europe/Paris", 3), ("Europe/Berlin", 3)]
  defaultPercent := some 1.0

def LANGUAGE_DATA : DataSource where
  source := "https://github.com/panopticlick/Panopticlick/blob/main/packages/valuation-engine/src/entropy.ts"
  sourceLabel := "Panopticlick POPULATION_STATS.languages"
  data := [("en-US", 35), ("zh-CN", 10), ("en-GB", 5), ("es", 5), ("de", 3),
           ("fr", 3), ("ja", 3)]
  defaultPercent := some 1.0

def PLATFORM_DATA : DataSource where
  source := "https://github.com/panopticlick/Panopticlick/blob/main/packages/valuation-engine/src/entropy.ts"
  sourceLabel := "Panopticlick POPULATION_STATS.platforms"
  data := [("Win32", 70), ("MacIntel", 15), ("iPhone", 5), ("Android", 4),
           ("Linux x86_64", 3), ("iPad", 2)]
  defaultPercent := some 1.0

/-- All market-share tables defined by the source. -/
def programTables : List DataSource :=
  [SCREEN_RESOLUTION_DATA, BROWSER_DATA, GPU_DATA, PIXEL_RATIO_DATA, DNT_DATA,
   CPU_CORES_DATA, DEVICE_MEMORY_DATA, AD_BLOCKER_DATA, TIMEZONE_DATA,
   LANGUAGE_DATA, PLATFORM_DATA]

/-! ### Section 4 of the source: data-lookup utilities. -/

/-- JavaScript `s.includes(t)`: `t` occurs as a contiguous substring of `s`. -/
def strIncludes (s t : String) : Bool := decide (t.data <:+: s.data)

/-- Result of `lookupMarketShare` (foundprint.js lines 735-770):
`{ percent, source, estimated }`. -/
structure MarketShareResult where
  percent : ℚ
  source : String
  estimated : Bool
deriving Repr, DecidableEq

/-- JavaScript `x || 1.0` applied to the optional `defaultPercent`
(line 766): `undefined` and `0` are falsy. -/
def jsOrOne : Option ℚ → ℚ
  | some p => if p = 0 then 1 else p
  | none => 1

/-- The partial-match test of strategy 2 (line 754):
`normalizedValue.includes(key) || key.includes(normalizedValue)`. -/
def partialMatchKey (normalizedValue : String) (kp : String × ℚ) : Bool :=
  strIncludes normalizedValue kp.1 || strIncludes kp.1 normalizedValue

/-- `lookupMarketShare(dataSource, value)` (foundprint.js lines 735-770).
Strategy 1: exact key match on the trimmed value.  Strategy 2: first key in
insertion order that contains, or is contained in, the normalized value.
Strategy 3: `defaultPercent || 1.0` flagged as estimated. -/
def lookupMarketShare (dataSource : DataSource) (value : String) : MarketShareResult :=
  let normalizedValue := value.trim
  match dataSource.data.lookup normalizedValue with
  | some p => ⟨p, dataSource.source, dataSource.estimatedFlag⟩
  | none =>
    match dataSource.data.find? (partialMatchKey normalizedValue) with
    | some kp => ⟨kp.2, dataSource.source, dataSource.estimatedFlag⟩
    | none => ⟨jsOrOne dataSource.defaultPercent, dataSource.source, true⟩

/-- `percentToEntropy(percent)` (foundprint.js lines 792-796):
`log2(100 / percent)`, clamped to `10` bits when `percent ≤ 0`. -/
noncomputable def percentToEntropy (percent : ℝ) : ℝ :=
  if percent ≤ 0 then 10 else Real.logb 2 (100 / percent)

/-- `percentToOneInX(percent)` (foundprint.js lines 811-814):
`100 / percent`, clamped to `1000` when `percent ≤ 0`. -/
noncomputable def percentToOneInX (percent : ℝ) : ℝ :=
  if percent ≤ 0 then 1000 else 100 / percent

/-! ### Section 5 of the source: general utilities. -/

/-- Result of `formatNumber` (foundprint.js lines 878-905).  The `text` shown
to the user embeds a rounded magnitude; `textValue` is that magnitude as a
number (e.g. `num = 2^34` displays as "17.2 billion", `textValue =
17.2e9`). -/
structure FormatResult where
  textValue : ℝ
  isUnique : Bool
  raw : ℝ

/-- `formatNumber(num)` (foundprint.js lines 878-905).  The magnitude branches
mirror `toFixed(1)` for trillions/billions/millions and `Math.round` below
that; `isUnique` is `num >= WORLD_POPULATION`; `raw` is the uncapped input. -/
noncomputable def formatNumber (num : ℝ) : FormatResult :=
  let textValue : ℝ :=
    if num ≥ 1000000000000 then (round (num / 1000000000000 * 10) : ℝ) / 10 * 1000000000000
    else if num ≥ 1000000000 then (round (num / 1000000000 * 10) : ℝ) / 10 * 1000000000
    else if num ≥ 1000000 then (round (num / 1000000 * 10) : ℝ) / 10 * 1000000
    else (round num : ℝ)
  if num ≥ WORLD_POPULATION then ⟨textValue, true, num⟩ else ⟨textValue, false, num⟩

/-- `entropyToUniqueness(bits)` (foundprint.js lines 921-924): `2^bits`. -/
noncomputable def entropyToUniqueness (bits : ℝ) : ℝ := (2 : ℝ) ^ bits

/-! ### `analyzePixelRatio` (foundprint.js lines 1230-1330), over exact
rationals. -/

inductive Confidence where
  | high
  | medium
  | low
deriving Repr, DecidableEq

/-- The object returned by `analyzePixelRatio` (the internal `diff` property
is deleted before returning). -/
structure PixelAnalysis where
  displayRatio : ℚ
  trueDPR : ℚ
  zoomPercent : ℤ
  isZoomed : Bool
  confidence : Confidence
  matchedBucket : String
deriving Repr, DecidableEq

/-- A candidate match collected in the `allMatches` array, with its `diff`. -/
structure PixelMatch where
  trueDPR : ℚ
  zoomPercent : ℤ
  diff : ℚ
deriving Repr, DecidableEq

/-- JavaScript `Math.round` on an exact rational: half-up toward `+∞`,
i.e. `⌊x + 1/2⌋` (stated via `Rat.floor` so that it evaluates by `decide`). -/
def jsRound (x : ℚ) : ℤ := (x + 1 / 2).floor


/-- `knownDPRs = [1, 1.25, 1.5, 2, 2.5, 3]` (line 1237). -/
def knownDPRs : List ℚ := [1, 1.25, 1.5, 2, 2.5, 3]

/-- `commonZoomLevels` (lines 1241-1257) as `(zoom, percent)` pairs. -/
def commonZoomLevels : List (ℚ × ℤ) :=
  [(1.0, 100), (1.1, 110), (1.2, 120), (1.25, 125), (1.33, 133), (1.5, 150),
   (1.75, 175), (2.0, 200), (0.9, 90), (0.8, 80), (0.75, 75), (0.67, 67),
   (0.5, 50), (0.33, 33), (0.3, 30)]

/-- JavaScript `String(baseDPR)` for the finitely many base DPR values that
occur (used to build `matchedBucket`). -/
def dprBucketString (q : ℚ) : String :=
  if q = 1 then "1" else if q = 1.25 then "1.25" else if q = 1.5 then "1.5"
  else if q = 2 then "2" else if q = 2.5 then "2.5" else if q = 3 then "3"
  else "?"

/-- The stable sort + take-first of `allMatches` (lines 1302-1313): the
earliest element that is minimal for the lexicographic order on
`(trueDPR, diff)`. -/
def bestMatch (m : PixelMatch) (rest : List PixelMatch) : PixelMatch :=
  rest.foldl (fun acc x =>
    if x.trueDPR < acc.trueDPR ∨ (x.trueDPR = acc.trueDPR ∧ x.diff < acc.diff)
    then x else acc) m

/-- `analyzePixelRatio(ratio)` (foundprint.js lines 1230-1330). -/
def analyzePixelRatio (ratio : ℚ) : PixelAnalysis :=
  let displayRatio : ℚ := (jsRound (ratio * 1000) : ℚ) / 1000
  let tolerance : ℚ := 0.015
  match knownDPRs.find? (fun baseDPR => |displayRatio - baseDPR| < tolerance) with
  | some baseDPR =>
      ⟨displayRatio, baseDPR, 100, false, .high, dprBucketString baseDPR⟩
  | none =>
    let allMatches : List PixelMatch :=
      knownDPRs.flatMap (fun baseDPR =>
        commonZoomLevels.filterMap (fun zp =>
          if zp.2 = 100 then none
          else
            let diff := |displayRatio - baseDPR * zp.1|
            if diff < tolerance then some ⟨baseDPR, zp.2, diff⟩ else none))
    match allMatches with
    | best :: rest =>
        let b := bestMatch best rest
        ⟨displayRatio, b.trueDPR, b.zoomPercent, true, .medium, dprBucketString b.trueDPR⟩
    | [] =>
        let inferredZoom : ℤ := jsRound (displayRatio * 100)
        ⟨displayRatio, 1, inferredZoom, true, .low, "1"⟩

/-! ### Section 3 of the source: `BASELINE_ENTROPY` (foundprint.js lines
496-699).  Each record's adjacent comment documents the candidate study
values it was selected from; those candidate lists are embedded in
`baselineCandidates` below. -/

/-- One record of `BASELINE_ENTROPY`: `{ bits, source, sourceLabel, note }`. -/
structure BaselineRecord where
  bits : ℚ
  source : Option String
  sourceLabel : String
  note : String
deriving Repr, DecidableEq

/-- `BASELINE_ENTROPY.webglRenderer`: AmIUnique 2016's 3.41 bits (HitC 2018
found 5.28). -/
def webglRendererBaseline : BaselineRecord :=
  ⟨3.41, some "https://hal.inria.fr/hal-01285470/document",
   "AmIUnique 2016 (Table 2)",
   "Conservative estimate; HitC 2018 found 5.28 bits"⟩

/-- `BASELINE_ENTROPY.webglVendor`: HitC 2018's 1.82 bits (AmIUnique found
2.14). -/
def webglVendorBaseline : BaselineRecord :=
  ⟨1.82, some "https://hal.inria.fr/hal-01718234v2/document",
   "Hiding in the Crowd 2018 (Table 3)",
   "Conservative estimate; AmIUnique found 2.14 bits"⟩

/-- `BASELINE_ENTROPY` (foundprint.js lines 496-699), as an insertion-ordered
string-keyed record list. -/
def BASELINE_ENTROPY : List (String × BaselineRecord) :=
  [("canvas", ⟨8.04, some "https://hal.inria.fr/hal-01718234v2/document",
      "Hiding in the Crowd 2018 (Table 3)",
      "Conservative estimate; AmIUnique found 8.28 bits"⟩),
   ("audio", ⟨10, some "https://github.com/panopticlick/Panopticlick/blob/main/packages/valuation-engine/src/entropy.ts",
      "Panopticlick entropy.ts (code comment)",
      "Based on Panopticlick implementation; no academic baseline available"⟩),
   ("webglRenderer", webglRendererBaseline),
   ("webglVendor", webglVendorBaseline),
   ("fonts", ⟨6.97, some "https://hal.inria.fr/hal-01718234v2/document",
      "Hiding in the Crowd 2018 (Table 3)",
      "Conservative estimate; Panopticlick found 13.9 bits"⟩),
   ("userAgent", ⟨6.32, some "https://hal.inria.fr/hal-01718234v2/document",
      "Hiding in the Crowd 2018 (Table 3)",
      "Conservative estimate; Panopticlick found 10.0 bits"⟩),
   ("timezone", ⟨3.04, some "https://coveryourtracks.eff.org/static/browser-uniqueness.pdf",
      "Panopticlick 2010",
      "HitC 2018 (0.10 bits) excluded due to French geographic bias"⟩),
   ("language", ⟨2.56, some "https://hal.inria.fr/hal-01718234v2/document",
      "Hiding in the Crowd 2018 (Table 3)",
      "Conservative estimate; AmIUnique found 5.92 bits"⟩),
   ("touchSupport", ⟨1, some "https://github.com/panopticlick/Panopticlick/blob/main/packages/valuation-engine/src/entropy.ts",
      "Panopticlick entropy.ts (calculateTouchPointsEntropy)",
      "Desktop (0 touch) = 1 bit; touch devices = 2-3 bits"⟩),
   ("connectionType", ⟨1.5, none, "No public dataset",
      "Estimated; no academic baseline available"⟩),
   ("plugins", ⟨0.21, some "https://hal.inria.fr/hal-01718234v2/document",
      "Hiding in the Crowd 2018 Mobile (Table 3)",
      "Plugins largely deprecated; desktop was 10.28 bits"⟩),
   ("doNotTrack", ⟨0.94, some "https://hal.inria.fr/hal-01285470/document",
      "AmIUnique 2016 (Table 2)",
      "Conservative estimate; HitC 2018 found 1.92 bits"⟩),
   ("cookiesEnabled", ⟨0.00, some "https://hal.inria.fr/hal-01718234v2/document",
      "Hiding in the Crowd 2018 (Table 3)",
      "Nearly universal; provides no distinguishing information"⟩),
   ("localStorage", ⟨0.04, some "https://hal.inria.fr/hal-01718234v2/document",
      "Hiding in the Crowd 2018 (Table 3)",
      "Nearly universal; provides minimal distinguishing information"⟩),
   ("screenResolution", ⟨4.83, some "https://coveryourtracks.eff.org/static/browser-uniqueness.pdf",
      "Panopticlick 2010",
      "Used when resolution not in Panopticlick POPULATION_STATS lookup table"⟩),
   ("pixelRatio", ⟨2.0, some "https://github.com/panopticlick/Panopticlick/blob/main/packages/valuation-engine/src/entropy.ts",
      "Panopticlick POPULATION_STATS (estimated for unlisted)",
      "For pixel ratios not in the lookup table"⟩),
   ("platform", ⟨0.56, some "https://coveryourtracks.eff.org/static/browser-uniqueness.pdf",
      "Panopticlick 2010",
      "Used when platform not in Panopticlick POPULATION_STATS lookup table"⟩),
   ("cpuCores", ⟨3.0, some "https://github.com/panopticlick/Panopticlick/blob/main/packages/valuation-engine/src/entropy.ts",
      "Panopticlick POPULATION_STATS (estimated for unlisted)",
      "For core counts not in the lookup table"⟩),
   ("deviceMemory", ⟨3.0, some "https://github.com/panopticlick/Panopticlick/blob/main/packages/valuation-engine/src/entropy.ts",
      "Panopticlick POPULATION_STATS (estimated for unlisted)",
      "For memory sizes not in the lookup table"⟩)]

/-- The candidate study values documented in the comment block above each
`BASELINE_ENTROPY` record (foundprint.js lines 496-699).  Keys with an empty
list (`connectionType`, `cpuCores`, `deviceMemory`) document no measured
study value at all, only a hand-chosen conservative estimate. -/
def baselineCandidates : List (String × List ℚ) :=
  [("canvas", [8.04, 8.28]),
   ("audio", [10]),
   ("webglRenderer", [3.41, 5.28]),
   ("webglVendor", [2.14, 1.82]),
   ("fonts", [13.9, 8.38, 6.97]),
   ("userAgent", [10.0, 9.78, 6.32]),
   ("timezone", [3.04, 3.34, 0.10]),
   ("language", [5.92, 2.56]),
   ("touchSupport", [1, 2, 3]),
   ("connectionType", []),
   ("plugins", [15.4, 11.06, 10.28, 0.21]),
   ("doNotTrack", [0.94, 1.92]),
   ("cookiesEnabled", [0.35, 0.25, 0.00]),
   ("localStorage", [0.41, 0.04]),
   ("screenResolution", [4.83, 5.21, 4.83]),
   ("pixelRatio", [5.64]),
   ("platform", [0.56, 1.06]),
   ("cpuCores", []),
   ("deviceMemory", [])]

/-! ### JSON values.

`generateFingerprintHash` serializes the collected raw values with
`JSON.stringify`; probe values are strings, decimal numbers, booleans, arrays
(font lists) and objects (`{vendor, renderer}`).  A number is represented as
a scaled decimal `m / 10^e`, matching the decimal notation JavaScript prints
for such values. -/

inductive Json where
  | null
  | bool (b : Bool)
  | num (m : ℤ) (e : ℕ)
  | str (s : String)
  | arr (elems : List Json)
  | obj (members : List (String × Json))
deriving Repr

/-! ### The webgl probe (`tests.webgl.run`, foundprint.js lines 2034-2116). -/

/-- The `lookup` object attached to a successful probe result (§6 of the
spec): `{ percent, source, sourceLabel, estimated, entropy, oneInX, note }`. -/
structure LookupInfo where
  percent : Option ℚ
  source : Option String
  sourceLabel : String
  estimated : Bool
  entropy : ℝ
  oneInX : ℝ
  note : Option String

/-- A successful probe result `{ value, lookup?, entropy? }` (the
`message` string is display-only).  `entropy` is the direct
`result.entropy` channel checked by the orchestrator's priority chain. -/
structure TestResult where
  value : Json
  lookup : Option LookupInfo
  entropy : Option ℝ

/-- Environment visible to the webgl probe: whether a WebGL context exists,
whether `WEBGL_debug_renderer_info` is available, and the reported
vendor/renderer strings. -/
structure WebglEnv where
  glAvailable : Bool
  debugInfoAvailable : Bool
  vendor : String
  renderer : String

/-- `tests.webgl.run` (foundprint.js lines 2038-2115): `null` without a GL
context; half the renderer baseline when the debug-info extension is missing;
a real GPU-table lookup when available; otherwise the combined
renderer+vendor baseline. -/
noncomputable def webglRun (env : WebglEnv) : Option TestResult :=
  if ¬env.glAvailable then none
  else if ¬env.debugInfoAvailable then
    some { value := .str env.renderer,
           lookup := some { percent := none,
                            source := some "https://hal.inria.fr/hal-01285470/document",
                            sourceLabel := "AmIUnique 2016 (Table 2)",
                            estimated := true,
                            entropy := (webglRendererBaseline.bits : ℝ) * 0.5,
                            oneInX := entropyToUniqueness ((webglRendererBaseline.bits : ℝ) * 0.5),
                            note := some "Reduced entropy - WebGL debug info not available" },
           entropy := none }
  else
    let lookup := lookupMarketShare GPU_DATA env.renderer
    if lookup.estimated = false then
      some { value := .obj [("vendor", .str env.vendor), ("renderer", .str env.renderer)],
             lookup := some { percent := some lookup.percent,
                              source := some lookup.source,
                              sourceLabel := GPU_DATA.sourceLabel,
                              estimated := false,
                              entropy := percentToEntropy (lookup.percent : ℝ),
                              oneInX := percentToOneInX (lookup.percent : ℝ),
                              note := some "Panopticlick lacks GPU data; Steam data is gamer-skewed" },
             entropy := none }
    else
      some { value := .obj [("vendor", .str env.vendor), ("renderer", .str env.renderer)],
             lookup := some { percent := none,
                              source := some "https://hal.inria.fr/hal-01285470/document",
                              sourceLabel := "AmIUnique 2016 (Table 2)",
                              estimated := true,
                              entropy := (webglRendererBaseline.bits : ℝ) + (webglVendorBaseline.bits : ℝ),
                              oneInX := entropyToUniqueness ((webglRendererBaseline.bits : ℝ) + (webglVendorBaseline.bits : ℝ)),
                              note := some "Conservative estimate; HitC 2018 found 5.28 bits" },
             entropy := none }

/-! ### The orchestrator (`runExperiment`, foundprint.js lines 2754-2892)
and the display layer it feeds (`addResultLine`, `showEndState`). -/

/-- Outcome of invoking one probe's `run()`: it may throw, return
`null`/`undefined`, or resolve to a result object. -/
inductive ProbeOutcome where
  | throws
  | nullish
  | success (r : TestResult)

/-- One entry of the orchestration sequence: the `testOrder` key, the
test's display `name`, and what its probe did on this run. -/
structure TestCase where
  key : String
  displayName : String
  outcome : ProbeOutcome

/-- The orchestrator's accumulator variables (lines 2769-2774):
`totalEntropy`, `successfulTests`, `failedTests`, `fingerprintValues`, and
the `completedTests` metadata (name, entropy) kept for the final report. -/
structure ExpState where
  totalEntropy : ℝ
  successfulTests : ℕ
  failedTests : List String
  fingerprintValues : List Json
  completedTests : List (String × ℝ)

/-- The initial accumulator state (lines 2769-2774). -/
def initialState : ExpState := ⟨0, 0, [], [], []⟩

/-- The entropy-source priority chain of the loop body (lines 2815-2843):
`result.lookup.entropy`, else `result.entropy`, else the webgl
renderer+vendor combination, else `BASELINE_ENTROPY[testName]`, else the
conservative `1.0`-bit fallback. -/
noncomputable def entropyBitsFor (testName : String) (r : TestResult) : ℝ :=
  match r.lookup with
  | some lk => lk.entropy
  | none =>
    match r.entropy with
    | some e => e
    | none =>
      if testName = "webgl" then
        (webglRendererBaseline.bits : ℝ) + (webglVendorBaseline.bits : ℝ)
      else
        match BASELINE_ENTROPY.lookup testName with
        | some entropyConfig => (entropyConfig.bits : ℝ)
        | none => 1.0

/-- One iteration of the `for (const testName of testOrder)` loop (lines
2798-2883): a throwing probe is caught and, like a `null` result, only
appends the test's name to `failedTests`; a success accumulates entropy,
bumps the success counter, pushes the raw value for hashing and records the
report metadata. -/
noncomputable def runTestStep (st : ExpState) (t : TestCase) : ExpState :=
  match t.outcome with
  | .throws => { st with failedTests := st.failedTests ++ [t.displayName] }
  | .nullish => { st with failedTests := st.failedTests ++ [t.displayName] }
  | .success r =>
    let entropyBits := entropyBitsFor t.key r
    { totalEntropy := st.totalEntropy + entropyBits,
      successfulTests := st.successfulTests + 1,
      failedTests := st.failedTests,
      fingerprintValues := st.fingerprintValues ++ [r.value],
      completedTests := st.completedTests ++ [(t.displayName, entropyBits)] }

/-- The whole `runExperiment` loop over an orchestration sequence. -/
noncomputable def runExperiment (st : ExpState) (ts : List TestCase) : ExpState :=
  ts.foldl runTestStep st

/-- The cumulative-uniqueness number `addResultLine` shows after each step
(lines 2569-2570): `formatNumber(entropyToUniqueness(totalEntropy))`, with
no population capping applied. -/
noncomputable def addResultLineTotal (totalEntropy : ℝ) : FormatResult :=
  formatNumber (entropyToUniqueness totalEntropy)

/-- `calcPotentialOneInX` inside `showEndState` (lines 2645-2649): the only
place (with the hard-only figure of line 2656) where `Math.min(·,
WORLD_POPULATION)` is applied before formatting. -/
noncomputable def calcPotentialOneInX (totalEntropy removedEntropy : ℝ) : FormatResult :=
  formatNumber (min (entropyToUniqueness (totalEntropy - removedEntropy)) WORLD_POPULATION)

/-! ### `generateFingerprintHash` serialization (foundprint.js lines
1100-1105).

`values.map(v => JSON.stringify(v)).join('|')` is embedded over `Json`.
`JSON.stringify` escaping is modelled in full: quote and backslash escapes,
the named control escapes, and `\u00XX` for remaining control characters.
A verified parser is used to prove the joined serialization injective. -/

namespace JsonStr

/-- The double-quote character `"`. -/
def qC : Char := Char.ofNat 34

/-- The backslash character. -/
def bsC : Char := Char.ofNat 92

/-- The left curly brace. -/
def lbC : Char := Char.ofNat 123

/-- The right curly brace. -/
def rbC : Char := Char.ofNat 125

/-- Lower-case hexadecimal digit for `n < 16`. -/
def hexDig (n : ℕ) : Char := Char.ofNat (if n < 10 then 48 + n else 87 + n)

/-- `JSON.stringify` escaping for one character inside a string literal. -/
def escapeChar (c : Char) : List Char :=
  if c = qC then [bsC, qC]
  else if c = bsC then [bsC, bsC]
  else if c = Char.ofNat 8 then [bsC, 'b']
  else if c = Char.ofNat 9 then [bsC, 't']
  else if c = Char.ofNat 10 then [bsC, 'n']
  else if c = Char.ofNat 12 then [bsC, 'f']
  else if c = Char.ofNat 13 then [bsC, 'r']
  else if c.toNat < 32 then [bsC, 'u', '0', '0', hexDig (c.toNat / 16), hexDig (c.toNat % 16)]
  else [c]

/-- Escape a whole string body. -/
def escapeChars : List Char → List Char
  | [] => []
  | c :: cs => escapeChar c ++ escapeChars cs

/-- The decimal digit character for `d < 10`. -/
def digitChar (d : ℕ) : Char := Char.ofNat (48 + d)

/-- Decimal digits of a natural number, most significant first. -/
def natDigits (n : ℕ) : List Char :=
  if h : n < 10 then [digitChar n]
  else natDigits (n / 10) ++ [digitChar (n % 10)]
decreasing_by exact Nat.div_lt_self (Nat.lt_of_lt_of_le (by norm_num) (Nat.le_of_not_lt h)) (by norm_num)

/-- Left-pad a digit list with `'0'` up to length `k`. -/
def padZeros (k : ℕ) (ds : List Char) : List Char :=
  List.replicate (k - ds.length) '0' ++ ds

/-- Decimal notation of the nonnegative scaled decimal `n / 10^e`:
for `e = 0` just the digits, otherwise digits with a decimal point `e`
places from the right (zero-padded, so `(5, 1)` prints `0.5`). -/
def natNumChars (n : ℕ) (e : ℕ) : List Char :=
  if e = 0 then natDigits n
  else
    let ds := padZeros (e + 1) (natDigits n)
    ds.take (ds.length - e) ++ '.' :: ds.drop (ds.length - e)

/-- Decimal notation of `m / 10^e` (a `'-'` sign for negative `m`). -/
def numChars (m : ℤ) (e : ℕ) : List Char :=
  if m < 0 then '-' :: natNumChars m.natAbs e else natNumChars m.natAbs e

end JsonStr

open JsonStr in
mutual

/-- `JSON.stringify` of a JSON value, as a character list. -/
def stringifyL : Json → List Char
  | .null => 'n' :: 'u' :: 'l' :: 'l' :: []
  | .bool true => 't' :: 'r' :: 'u' :: 'e' :: []
  | .bool false => 'f' :: 'a' :: 'l' :: 's' :: 'e' :: []
  | .num m e => numChars m e
  | .str s => qC :: escapeChars s.data ++ [qC]
  | .arr es => '[' :: stringifyArrBody es ++ [']']
  | .obj ms => lbC :: stringifyObjBody ms ++ [rbC]

/-- Comma-joined serialization of array elements. -/
def stringifyArrBody : List Json → List Char
  | [] => []
  | [v] => stringifyL v
  | v :: vs => stringifyL v ++ ',' :: stringifyArrBody vs

/-- Comma-joined serialization of `"key":value` object members. -/
def stringifyObjBody : List (String × Json) → List Char
  | [] => []
  | [(k, v)] => qC :: escapeChars k.data ++ qC :: ':' :: stringifyL v
  | (k, v) :: ms =>
    (qC :: escapeChars k.data ++ qC :: ':' :: stringifyL v) ++ ',' :: stringifyObjBody ms

end

/-- `JSON.stringify` of a JSON value. -/
def stringify (v : Json) : String := ⟨stringifyL v⟩

/-- The `.map(JSON.stringify).join('|')` composition of
`generateFingerprintHash` (line 1103), as a character list. -/
def fingerprintJoinedChars : List Json → List Char
  | [] => []
  | [v] => stringifyL v
  | v :: vs => stringifyL v ++ '|' :: fingerprintJoinedChars vs

/-- The joined serialization string that `generateFingerprintHash` passes to
`md5` (foundprint.js line 1103). -/
def fingerprintJoined (values : List Json) : String := ⟨fingerprintJoinedChars values⟩

namespace JsonStr

/-- Value of a lower-case hexadecimal digit character. -/
def hexVal (c : Char) : ℕ := if c.toNat < 58 then c.toNat - 48 else c.toNat - 87

/-- Decode a single-character JSON escape. -/
def unescapeChar (e : Char) : Option Char :=
  if e = qC then some qC
  else if e = bsC then some bsC
  else if e = '/' then some '/'
  else if e = 'n' then some (Char.ofNat 10)
  else if e = 'r' then some (Char.ofNat 13)
  else if e = 't' then some (Char.ofNat 9)
  else if e = 'b' then some (Char.ofNat 8)
  else if e = 'f' then some (Char.ofNat 12)
  else none

/-- Prepend a decoded character to a string-body parse result. -/
def consFst (c : Char) : Option (List Char × List Char) → Option (List Char × List Char)
  | some (s, r) => some (c :: s, r)
  | none => none

mutual

/-- Parse the body of a JSON string literal (after the opening quote) up to
and including the closing quote; returns the decoded body and the rest. -/
def parseStrBody : List Char → Option (List Char × List Char)
  | [] => none
  | c :: rest =>
    if c = qC then some ([], rest)
    else if c = bsC then parseEsc rest
    else consFst c (parseStrBody rest)
termination_by cs => cs.length

/-- Parse what follows a backslash inside a string literal. -/
def parseEsc : List Char → Option (List Char × List Char)
  | [] => none
  | e :: rest2 =>
    if e = 'u' then parseHex rest2
    else
      match unescapeChar e with
      | some d => consFst d (parseStrBody rest2)
      | none => none
termination_by cs => cs.length

/-- Parse the four hex digits of a `\u` escape. -/
def parseHex : List Char → Option (List Char × List Char)
  | h1 :: h2 :: h3 :: h4 :: rest3 =>
    consFst (Char.ofNat (((hexVal h1 * 16 + hexVal h2) * 16 + hexVal h3) * 16 + hexVal h4))
      (parseStrBody rest3)
  | _ => none
termination_by cs => cs.length

end

/-- Decimal value of a digit list, most significant first. -/
def digitsVal (ds : List Char) : ℕ := ds.foldl (fun a c => 10 * a + (c.toNat - 48)) 0

/-- Parse a nonnegative decimal number (digits, optionally a point and more
digits) into `(mantissa, fraction length, rest)`. -/
def parseNumNat (cs : List Char) : Option (ℕ × ℕ × List Char) :=
  let d1 := cs.takeWhile (·.isDigit)
  let rest := cs.dropWhile (·.isDigit)
  if d1.isEmpty then none
  else
    match rest with
    | '.' :: r2 =>
      let d2 := r2.takeWhile (·.isDigit)
      let r3 := r2.dropWhile (·.isDigit)
      if d2.isEmpty then none else some (digitsVal (d1 ++ d2), d2.length, r3)
    | _ => some (digitsVal d1, 0, rest)

/-- Strip an expected literal tail (`"ull"`, `"rue"`, `"alse"`). -/
def stripLit : List Char → List Char → Option (List Char)
  | [], cs => some cs
  | _ :: _, [] => none
  | l :: ls, c :: cs => if c = l then stripLit ls cs else none

end JsonStr

open JsonStr in
mutual

/-- Fuel-indexed parser for one JSON value; inverse of `stringifyL`. -/
def parseJ : ℕ → List Char → Option (Json × List Char)
  | 0, _ => none
  | _ + 1, [] => none
  | fuel + 1, c :: rest =>
    if c = 'n' then
      match stripLit ['u', 'l', 'l'] rest with
      | some r => some (.null, r)
      | none => none
    else if c = 't' then
      match stripLit ['r', 'u', 'e'] rest with
      | some r => some (.bool true, r)
      | none => none
    else if c = 'f' then
      match stripLit ['a', 'l', 's', 'e'] rest with
      | some r => some (.bool false, r)
      | none => none
    else if c = qC then
      match parseStrBody rest with
      | some (s, r) => some (.str ⟨s⟩, r)
      | none => none
    else if c = '[' then parseArrStart fuel rest
    else if c = lbC then parseObjStart fuel rest
    else if c = '-' then
      match parseNumNat rest with
      | some (n, e, r) => some (.num (-(n : ℤ)) e, r)
      | none => none
    else if c.isDigit then
      match parseNumNat (c :: rest) with
      | some (n, e, r) => some (.num (n : ℤ) e, r)
      | none => none
    else none
termination_by fuel _ => 6 * fuel

/-- After `'['`: either an immediate `']'` or a nonempty element list. -/
def parseArrStart : ℕ → List Char → Option (Json × List Char)
  | _, [] => none
  | fuel, r0 :: r1 =>
    if r0 = ']' then some (.arr [], r1)
    else
      match parseArr fuel (r0 :: r1) with
      | some (vs, r) => some (.arr vs, r)
      | none => none
termination_by fuel _ => 6 * fuel + 3

/-- After `'{'`: either an immediate `'}'` or a nonempty member list. -/
def parseObjStart : ℕ → List Char → Option (Json × List Char)
  | _, [] => none
  | fuel, r0 :: r1 =>
    if r0 = rbC then some (.obj [], r1)
    else
      match parseObj fuel (r0 :: r1) with
      | some (ms, r) => some (.obj ms, r)
      | none => none
termination_by fuel _ => 6 * fuel + 4

/-- Fuel-indexed parser for a nonempty comma-separated array body up to and
including the closing bracket. -/
def parseArr : ℕ → List Char → Option (List Json × List Char)
  | 0, _ => none
  | fuel + 1, cs =>
    match parseJ (fuel + 1) cs with
    | some (v, r) =>
      match r with
      | ']' :: r2 => some ([v], r2)
      | ',' :: r2 =>
        match parseArr fuel r2 with
        | some (vs, r3) => some (v :: vs, r3)
        | none => none
      | _ => none
    | none => none
termination_by fuel _ => 6 * fuel + 1

/-- Fuel-indexed parser for a nonempty object body up to and including the
closing brace. -/
def parseObj : ℕ → List Char → Option (List (String × Json) × List Char)
  | 0, _ => none
  | fuel + 1, cs =>
    match cs with
    | [] => none
    | c :: rest =>
      if c = qC then
        match parseStrBody rest with
        | some (k, r1) =>
          match r1 with
          | ':' :: r2 =>
            match parseJ (fuel + 1) r2 with
            | some (v, r3) =>
              match r3 with
              | [] => none
              | c2 :: r4 =>
                if c2 = rbC then some ([(⟨k⟩, v)], r4)
                else if c2 = ',' then
                  match parseObj fuel r4 with
                  | some (ms, r5) => some ((⟨k⟩, v) :: ms, r5)
                  | none => none
                else none
            | none => none
          | _ => none
        | none => none
      else none
termination_by fuel _ => 6 * fuel + 2

end

mutual

/-- Parser fuel sufficient for a value. -/
def costJ : Json → ℕ
  | .null => 1
  | .bool _ => 1
  | .num _ _ => 1
  | .str _ => 1
  | .arr es => costArr es + 1
  | .obj ms => costObj ms + 1

/-- Parser fuel sufficient for an array body. -/
def costArr : List Json → ℕ
  | [] => 0
  | v :: vs => max (costJ v) (costArr vs) + 1

/-- Parser fuel sufficient for an object body. -/
def costObj : List (String × Json) → ℕ
  | [] => 0
  | (_, v) :: ms => max (costJ v) (costObj ms) + 1

end

/-- Fuel-indexed parser for a `'|'`-joined sequence of JSON values; inverse
of `fingerprintJoinedChars`. -/
def parseJoined : ℕ → List Char → Option (List Json)
  | _, [] => some []
  | 0, _ :: _ => none
  | fuel + 1, cs =>
    match parseJ (fuel + 1) cs with
    | some (v, r) =>
      match r with
      | [] => some [v]
      | '|' :: r2 =>
        match parseJoined fuel r2 with
        | some vs => some (v :: vs)
        | none => none
      | _ => none
    | none => none

/-- Parser fuel sufficient for a joined value list. -/
def costJoined : List Json → ℕ
  | [] => 0
  | v :: vs => max (costJ v) (costJoined vs) + 1

/-- Entropy contributed by one orchestration step: the priority-chain value
for a success, nothing for an unavailable or throwing probe. -/
noncomputable def stepEntropy : TestCase → ℝ
  | ⟨key, _, .success r⟩ => entropyBitsFor key r
  | ⟨_, _, .throws⟩ => 0
  | ⟨_, _, .nullish⟩ => 0

/-- Success count contributed by one orchestration step. -/
def stepSucc : TestCase → ℕ
  | ⟨_, _, .success _⟩ => 1
  | ⟨_, _, .throws⟩ => 0
  | ⟨_, _, .nullish⟩ => 0

/-- Raw fingerprint values contributed by one orchestration step. -/
def stepValues : TestCase → List Json
  | ⟨_, _, .success r⟩ => [r.value]
  | ⟨_, _, .throws⟩ => []
  | ⟨_, _, .nullish⟩ => []

/-- Failure-list entries contributed by one orchestration step. -/
def stepFails : TestCase → List String
  | ⟨_, _, .success _⟩ => []
  | ⟨_, d, .throws⟩ => [d]
  | ⟨_, d, .nullish⟩ => [d]

/-- The entropy values the program's own tests and reference data can
produce: a `percentToEntropy` of a market-share lookup on one of the
program's tables, a `BASELINE_ENTROPY` record's bits, the degraded webgl
half-baseline, the combined webgl renderer+vendor baseline, or the
conservative `1.0`-bit fallback. -/
noncomputable def programEntropyVal (e : ℝ) : Prop :=
  (∃ ds ∈ programTables, ∃ v : String, e = percentToEntropy ((lookupMarketShare ds v).percent : ℝ))
  ∨ (∃ kr ∈ BASELINE_ENTROPY, e = ((kr.2 : BaselineRecord).bits : ℝ))
  ∨ e = (webglRendererBaseline.bits : ℝ) * 0.5
  ∨ e = (webglRendererBaseline.bits : ℝ) + (webglVendorBaseline.bits : ℝ)
  ∨ e = 1

/-- An orchestration step whose (possible) success result carries a
program-produced entropy value. -/
noncomputable def validStep (t : TestCase) : Prop :=
  ∀ r, t.outcome = .success r → programEntropyVal (entropyBitsFor t.key r)

/-- Head-condition used to delimit a serialized number: the following
character (if any) must not extend the number. -/
def numDelim (rest : List Char) : Prop :=
  ∀ c, rest.head? = some c → c.isDigit = false ∧ c ≠ '.'

end Foundprint

namespace Foundprint
open JsonStr

theorem charOfNat_toNat (c : Char) : Char.ofNat c.toNat = c := by
  have h : c.toNat.isValidChar := c.valid
  apply Char.eq_of_val_eq
  simp [Char.ofNat, h, Char.ofNatAux]
  rfl

theorem hexVal_hexDig {n : ℕ} (h : n < 16) : hexVal (hexDig n) = n := by
  interval_cases n <;> decide

theorem ne_of_isDigit {c x : Char} (hc : c.isDigit = true) (hx : x.isDigit = false) : c ≠ x := by
  rintro rfl
  rw [hc] at hx
  cases hx

theorem parseStrBody_cons_qC (rest : List Char) : parseStrBody (qC :: rest) = some ([], rest) := by
  simp [parseStrBody]

theorem parseStrBody_cons_bsC (rest : List Char) : parseStrBody (bsC :: rest) = parseEsc rest := by
  simp [parseStrBody, show (bsC = qC) = False from by decide]

theorem parseStrBody_cons_plain {c : Char} (rest : List Char) (h1 : c ≠ qC) (h2 : c ≠ bsC) :
    parseStrBody (c :: rest) = consFst c (parseStrBody rest) := by
  simp only [parseStrBody]
  rw [if_neg h1, if_neg h2]

theorem parseEsc_u (rest : List Char) : parseEsc ('u' :: rest) = parseHex rest := by
  simp [parseEsc]

theorem parseEsc_other {e : Char} (rest : List Char) (h : e ≠ 'u') :
    parseEsc (e :: rest) =
      match unescapeChar e with
      | some d => consFst d (parseStrBody rest)
      | none => none := by
  simp only [parseEsc]
  rw [if_neg h]

theorem parseStrBody_escape (s : List Char) (rest : List Char) :
    parseStrBody (escapeChars s ++ qC :: rest) = some (s, rest) := by
  induction s generalizing rest with
  | nil => simpa [escapeChars] using parseStrBody_cons_qC rest
  | cons c cs ih =>
    show parseStrBody ((escapeChar c ++ escapeChars cs) ++ qC :: rest) = _
    rw [List.append_assoc]
    by_cases h1 : c = qC
    · subst h1
      rw [show escapeChar qC = [bsC, qC] from by decide]
      rw [List.cons_append, List.cons_append, List.nil_append, parseStrBody_cons_bsC,
        parseEsc_other _ (by decide), show unescapeChar qC = some qC from by decide, ih]
      rfl
    · by_cases h2 : c = bsC
      · subst h2
        rw [show escapeChar bsC = [bsC, bsC] from by decide]
        rw [List.cons_append, List.cons_append, List.nil_append, parseStrBody_cons_bsC,
          parseEsc_other _ (by decide), show unescapeChar bsC = some bsC from by decide, ih]
        rfl
      · by_cases h3 : c = Char.ofNat 8
        · subst h3
          rw [show escapeChar (Char.ofNat 8) = [bsC, 'b'] from by decide]
          rw [List.cons_append, List.cons_append, List.nil_append, parseStrBody_cons_bsC,
            parseEsc_other _ (by decide), show unescapeChar 'b' = some (Char.ofNat 8) from by decide,
            ih]
          rfl
        · by_cases h4 : c = Char.ofNat 9
          · subst h4
            rw [show escapeChar (Char.ofNat 9) = [bsC, 't'] from by decide]
            rw [List.cons_append, List.cons_append, List.nil_append, parseStrBody_cons_bsC,
              parseEsc_other _ (by decide),
              show unescapeChar 't' = some (Char.ofNat 9) from by decide, ih]
            rfl
          · by_cases h5 : c = Char.ofNat 10
            · subst h5
              rw [show escapeChar (Char.ofNat 10) = [bsC, 'n'] from by decide]
              rw [List.cons_append, List.cons_append, List.nil_append, parseStrBody_cons_bsC,
                parseEsc_other _ (by decide),
                show unescapeChar 'n' = some (Char.ofNat 10) from by decide, ih]
              rfl
            · by_cases h6 : c = Char.ofNat 12
              · subst h6
                rw [show escapeChar (Char.ofNat 12) = [bsC, 'f'] from by decide]
                rw [List.cons_append, List.cons_append, List.nil_append, parseStrBody_cons_bsC,
                  parseEsc_other _ (by decide),
                  show unescapeChar 'f' = some (Char.ofNat 12) from by decide, ih]
                rfl
              · by_cases h7 : c = Char.ofNat 13
                · subst h7
                  rw [show escapeChar (Char.ofNat 13) = [bsC, 'r'] from by decide]
                  rw [List.cons_append, List.cons_append, List.nil_append, parseStrBody_cons_bsC,
                    parseEsc_other _ (by decide),
                    show unescapeChar 'r' = some (Char.ofNat 13) from by decide, ih]
                  rfl
                · by_cases h8 : c.toNat < 32
                  · have hdiv : c.toNat / 16 < 16 := by omega
                    have hmod : c.toNat % 16 < 16 := Nat.mod_lt _ (by norm_num)
                    rw [show escapeChar c
                        = [bsC, 'u', '0', '0', hexDig (c.toNat / 16), hexDig (c.toNat % 16)] from by
                      simp only [escapeChar, if_neg h1, if_neg h2, if_neg h3, if_neg h4,
                        if_neg h5, if_neg h6, if_neg h7, if_pos h8]]
                    simp only [List.cons_append, List.nil_append]
                    rw [parseStrBody_cons_bsC, parseEsc_u]
                    simp only [parseHex]
                    rw [ih, show hexVal '0' = 0 from by decide, hexVal_hexDig hdiv,
                      hexVal_hexDig hmod,
                      show ((0 * 16 + 0) * 16 + c.toNat / 16) * 16 + c.toNat % 16 = c.toNat by omega,
                      charOfNat_toNat c]
                    rfl
                  · rw [show escapeChar c = [c] from by
                        simp only [escapeChar, if_neg h1, if_neg h2, if_neg h3, if_neg h4,
                          if_neg h5, if_neg h6, if_neg h7, if_neg h8],
                      List.cons_append, List.nil_append, parseStrBody_cons_plain _ h1 h2, ih]
                    rfl

theorem takeWhile_append_all {p : Char → Bool} {l r : List Char}
    (hl : ∀ c ∈ l, p c = true) (hr : ∀ c, r.head? = some c → p c = false) :
    (l ++ r).takeWhile p = l := by
  induction l with
  | nil =>
    simp only [List.nil_append]
    cases r with
    | nil => rfl
    | cons c r' => simp [List.takeWhile_cons, hr c rfl]
  | cons a l ih =>
    simp [List.takeWhile_cons, hl a (by simp), ih (fun c hc => hl c (by simp [hc]))]

theorem dropWhile_append_all {p : Char → Bool} {l r : List Char}
    (hl : ∀ c ∈ l, p c = true) (hr : ∀ c, r.head? = some c → p c = false) :
    (l ++ r).dropWhile p = r := by
  induction l with
  | nil =>
    simp only [List.nil_append]
    cases r with
    | nil => rfl
    | cons c r' => simp [List.dropWhile_cons, hr c rfl]
  | cons a l ih =>
    simp [List.dropWhile_cons, hl a (by simp), ih (fun c hc => hl c (by simp [hc]))]

theorem charToNat_ofNat_small {m : ℕ} (h : m < 55296) : (Char.ofNat m).toNat = m := by
  have hv : m.isValidChar := Or.inl h
  simp [Char.ofNat, hv, Char.ofNatAux, Char.toNat]
  rfl

theorem digitChar_toNat {d : ℕ} (h : d < 10) : (digitChar d).toNat = 48 + d := by
  unfold JsonStr.digitChar
  exact charToNat_ofNat_small (by omega)

theorem digitChar_isDigit {d : ℕ} (h : d < 10) : (digitChar d).isDigit = true := by
  interval_cases d <;> decide

theorem natDigits_all_digits (n : ℕ) : ∀ c ∈ natDigits n, c.isDigit = true := by
  induction n using Nat.strong_induction_on with
  | _ n ih =>
    intro c hc
    rw [natDigits] at hc
    by_cases h : n < 10
    · rw [dif_pos h] at hc
      simp at hc
      subst hc
      exact digitChar_isDigit h
    · rw [dif_neg h] at hc
      rcases List.mem_append.1 hc with h1 | h2
      · exact ih (n / 10) (Nat.div_lt_self (by omega) (by norm_num)) c h1
      · simp at h2
        subst h2
        exact digitChar_isDigit (Nat.mod_lt _ (by norm_num))

theorem natDigits_ne_nil (n : ℕ) : natDigits n ≠ [] := by
  rw [natDigits]
  by_cases h : n < 10
  · rw [dif_pos h]
    simp
  · rw [dif_neg h]
    simp

theorem digitsVal_from (l : List Char) :
    ∀ a : ℕ, l.foldl (fun a c => 10 * a + (c.toNat - 48)) a
      = a * 10 ^ l.length + digitsVal l := by
  induction l with
  | nil => intro a; simp [digitsVal]
  | cons c l ih =>
    intro a
    show l.foldl _ (10 * a + (c.toNat - 48)) = _
    rw [ih]
    have h2 : digitsVal (c :: l) = (c.toNat - 48) * 10 ^ l.length + digitsVal l := by
      show l.foldl _ (10 * 0 + (c.toNat - 48)) = _
      rw [ih]
      ring_nf
    rw [h2]
    simp [List.length_cons]
    ring

theorem digitsVal_append (l1 l2 : List Char) :
    digitsVal (l1 ++ l2) = digitsVal l1 * 10 ^ l2.length + digitsVal l2 := by
  show (l1 ++ l2).foldl _ 0 = _
  rw [List.foldl_append]
  exact digitsVal_from l2 (digitsVal l1)

theorem digitsVal_natDigits (n : ℕ) : digitsVal (natDigits n) = n := by
  induction n using Nat.strong_induction_on with
  | _ n ih =>
    rw [natDigits]
    by_cases h : n < 10
    · rw [dif_pos h]
      show List.foldl _ 0 _ = n
      simp [digitChar_toNat h]
    · rw [dif_neg h]
      rw [digitsVal_append]
      rw [ih (n / 10) (Nat.div_lt_self (by omega) (by norm_num))]
      have hm : n % 10 < 10 := Nat.mod_lt _ (by norm_num)
      have hone : digitsVal [digitChar (n % 10)] = n % 10 := by
        show List.foldl _ 0 _ = _
        simp [digitChar_toNat hm]
      rw [hone]
      simp
      omega

theorem digitsVal_replicate_zero (k : ℕ) (ds : List Char) :
    digitsVal (List.replicate k '0' ++ ds) = digitsVal ds := by
  induction k with
  | zero => simp
  | succ k ih =>
    rw [List.replicate_succ, List.cons_append]
    show List.foldl _ (10 * 0 + ('0'.toNat - 48)) _ = _
    rw [show (10 * 0 + ('0'.toNat - 48)) = 0 from by decide]
    exact ih

theorem padZeros_all_digits (k : ℕ) (n : ℕ) :
    ∀ c ∈ padZeros k (natDigits n), c.isDigit = true := by
  intro c hc
  rcases List.mem_append.1 hc with h1 | h2
  · rw [List.eq_of_mem_replicate h1]
    decide
  · exact natDigits_all_digits n c h2

theorem digitsVal_padZeros (k : ℕ) (n : ℕ) : digitsVal (padZeros k (natDigits n)) = n := by
  unfold JsonStr.padZeros
  rw [digitsVal_replicate_zero, digitsVal_natDigits]

theorem padZeros_length {k : ℕ} {ds : List Char} : k ≤ (padZeros k ds).length := by
  simp [padZeros]
  omega


theorem natNumChars_cons (n e : ℕ) :
    ∃ h t, natNumChars n e = h :: t ∧ h.isDigit = true := by
  unfold JsonStr.natNumChars
  by_cases he : e = 0
  · rw [if_pos he]
    obtain ⟨h, t, hht⟩ := List.exists_cons_of_ne_nil (natDigits_ne_nil n)
    exact ⟨h, t, hht, natDigits_all_digits n h (by rw [hht]; simp)⟩
  · rw [if_neg he]
    set ds := padZeros (e + 1) (natDigits n) with hds
    have hlen : e + 1 ≤ ds.length := padZeros_length
    have htake : ds.take (ds.length - e) ≠ [] := by
      have : (ds.take (ds.length - e)).length = ds.length - e := by
        rw [List.length_take]
        omega
      intro hnil
      rw [hnil] at this
      simp at this
      omega
    obtain ⟨h, t, hht⟩ := List.exists_cons_of_ne_nil htake
    refine ⟨h, t ++ '.' :: ds.drop (ds.length - e), ?_, ?_⟩
    swap
    · have hmem : h ∈ ds := by
        have : h ∈ ds.take (ds.length - e) := by rw [hht]; simp
        exact List.mem_of_mem_take this
      exact padZeros_all_digits (e + 1) n h hmem
    · show ds.take (ds.length - e) ++ '.' :: ds.drop (ds.length - e)
        = h :: (t ++ '.' :: ds.drop (ds.length - e))
      rw [hht]
      simp

theorem parseNumNat_natNumChars (n e : ℕ) (rest : List Char) (hrest : numDelim rest) :
    parseNumNat (natNumChars n e ++ rest) = some (n, e, rest) := by
  have hrest' : ∀ c, rest.head? = some c → c.isDigit = false := fun c hc => (hrest c hc).1
  by_cases he : e = 0
  · subst he
    rw [show natNumChars n 0 = natDigits n from by unfold JsonStr.natNumChars; rw [if_pos rfl]]
    unfold JsonStr.parseNumNat
    rw [takeWhile_append_all (natDigits_all_digits n) hrest',
      dropWhile_append_all (natDigits_all_digits n) hrest']
    rw [if_neg (by simpa using natDigits_ne_nil n)]
    rw [digitsVal_natDigits]
    cases rest with
    | nil => rfl
    | cons c r' =>
      have hc : c ≠ '.' := (hrest c rfl).2
      split
      · rename_i r2 heq
        injection heq with h1 _
        exact absurd h1 hc
      · rfl
  · unfold JsonStr.natNumChars
    rw [if_neg he]
    set ds := padZeros (e + 1) (natDigits n) with hds
    have hlen : e + 1 ≤ ds.length := padZeros_length
    have hall : ∀ c ∈ ds, c.isDigit = true := padZeros_all_digits (e + 1) n
    have htlen : (ds.take (ds.length - e)).length = ds.length - e := by
      rw [List.length_take]
      omega
    have hdlen : (ds.drop (ds.length - e)).length = e := by
      rw [List.length_drop]
      omega
    have htake_digits : ∀ c ∈ ds.take (ds.length - e), c.isDigit = true :=
      fun c hc => hall c (List.mem_of_mem_take hc)
    have hdrop_digits : ∀ c ∈ ds.drop (ds.length - e), c.isDigit = true :=
      fun c hc => hall c (List.mem_of_mem_drop hc)
    unfold JsonStr.parseNumNat
    rw [List.append_assoc, List.cons_append]
    rw [takeWhile_append_all htake_digits (fun c hc => by simp at hc; subst hc; decide),
      dropWhile_append_all htake_digits (fun c hc => by simp at hc; subst hc; decide)]
    rw [if_neg (by
      intro hempty
      rw [List.isEmpty_iff] at hempty
      rw [hempty] at htlen
      simp at htlen
      omega)]
    simp only []
    rw [takeWhile_append_all hdrop_digits hrest', dropWhile_append_all hdrop_digits hrest']
    rw [if_neg (by
      intro hempty
      rw [List.isEmpty_iff] at hempty
      rw [hempty] at hdlen
      simp at hdlen
      omega)]
    rw [List.take_append_drop, hdlen]
    rw [show digitsVal ds = n from digitsVal_padZeros (e + 1) n]

theorem stripLit_ull (r : List Char) : stripLit ['u', 'l', 'l'] ('u' :: 'l' :: 'l' :: r) = some r := by
  simp [stripLit]

theorem stripLit_rue (r : List Char) : stripLit ['r', 'u', 'e'] ('r' :: 'u' :: 'e' :: r) = some r := by
  simp [stripLit]

theorem stripLit_alse (r : List Char) :
    stripLit ['a', 'l', 's', 'e'] ('a' :: 'l' :: 's' :: 'e' :: r) = some r := by
  simp [stripLit]

theorem parseJ_head_n (fuel : ℕ) (rest : List Char) :
    parseJ (fuel + 1) ('n' :: rest) =
      match stripLit ['u', 'l', 'l'] rest with
      | some r => some (.null, r)
      | none => none := by
  simp [parseJ]

theorem parseJ_head_t (fuel : ℕ) (rest : List Char) :
    parseJ (fuel + 1) ('t' :: rest) =
      match stripLit ['r', 'u', 'e'] rest with
      | some r => some (.bool true, r)
      | none => none := by
  simp [parseJ]

theorem parseJ_head_f (fuel : ℕ) (rest : List Char) :
    parseJ (fuel + 1) ('f' :: rest) =
      match stripLit ['a', 'l', 's', 'e'] rest with
      | some r => some (.bool false, r)
      | none => none := by
  simp [parseJ]

theorem parseJ_head_qC (fuel : ℕ) (rest : List Char) :
    parseJ (fuel + 1) (qC :: rest) =
      match parseStrBody rest with
      | some (s, r) => some (.str ⟨s⟩, r)
      | none => none := by
  simp [parseJ, show (qC = 'n') = False from by decide, show (qC = 't') = False from by decide,
    show (qC = 'f') = False from by decide]

theorem parseJ_head_lsq (fuel : ℕ) (rest : List Char) :
    parseJ (fuel + 1) ('[' :: rest) = parseArrStart fuel rest := by
  simp [parseJ, show (('[' : Char) = 'n') = False from by decide,
    show (('[' : Char) = 't') = False from by decide,
    show (('[' : Char) = 'f') = False from by decide,
    show (('[' : Char) = qC) = False from by decide]

theorem parseJ_head_lbC (fuel : ℕ) (rest : List Char) :
    parseJ (fuel + 1) (lbC :: rest) = parseObjStart fuel rest := by
  simp [parseJ, show (lbC = 'n') = False from by decide, show (lbC = 't') = False from by decide,
    show (lbC = 'f') = False from by decide, show (lbC = qC) = False from by decide,
    show (lbC = '[') = False from by decide]

theorem parseJ_head_dash (fuel : ℕ) (rest : List Char) :
    parseJ (fuel + 1) ('-' :: rest) =
      match parseNumNat rest with
      | some (n, e, r) => some (.num (-(n : ℤ)) e, r)
      | none => none := by
  simp [parseJ, show (('-' : Char) = 'n') = False from by decide,
    show (('-' : Char) = 't') = False from by decide,
    show (('-' : Char) = 'f') = False from by decide,
    show (('-' : Char) = qC) = False from by decide,
    show (('-' : Char) = '[') = False from by decide,
    show (('-' : Char) = lbC) = False from by decide]

theorem parseJ_head_digit (fuel : ℕ) {c : Char} (rest : List Char) (hc : c.isDigit = true) :
    parseJ (fuel + 1) (c :: rest) =
      match parseNumNat (c :: rest) with
      | some (n, e, r) => some (.num (n : ℤ) e, r)
      | none => none := by
  simp only [parseJ]
  rw [if_neg (ne_of_isDigit hc (by decide)), if_neg (ne_of_isDigit hc (by decide)),
    if_neg (ne_of_isDigit hc (by decide)), if_neg (ne_of_isDigit hc (by decide)),
    if_neg (ne_of_isDigit hc (by decide)), if_neg (ne_of_isDigit hc (by decide)),
    if_neg (ne_of_isDigit hc (by decide)), if_pos hc]

theorem parseArrStart_rsq (fuel : ℕ) (r1 : List Char) :
    parseArrStart fuel (']' :: r1) = some (.arr [], r1) := by
  simp [parseArrStart]

theorem parseArrStart_ne (fuel : ℕ) {r0 : Char} (r1 : List Char) (h : r0 ≠ ']') :
    parseArrStart fuel (r0 :: r1) =
      match parseArr fuel (r0 :: r1) with
      | some (vs, r) => some (.arr vs, r)
      | none => none := by
  simp only [parseArrStart]
  rw [if_neg h]

theorem parseObjStart_rbC (fuel : ℕ) (r1 : List Char) :
    parseObjStart fuel (rbC :: r1) = some (.obj [], r1) := by
  simp [parseObjStart]

theorem parseObjStart_ne (fuel : ℕ) {r0 : Char} (r1 : List Char) (h : r0 ≠ rbC) :
    parseObjStart fuel (r0 :: r1) =
      match parseObj fuel (r0 :: r1) with
      | some (ms, r) => some (.obj ms, r)
      | none => none := by
  simp only [parseObjStart]
  rw [if_neg h]

theorem numDelim_nil : numDelim [] := by
  intro c hc
  cases hc

theorem numDelim_cons {c : Char} (r : List Char) (h1 : c.isDigit = false) (h2 : c ≠ '.') :
    numDelim (c :: r) := by
  intro x hx
  simp at hx
  subst hx
  exact ⟨h1, h2⟩

theorem costJ_pos (v : Json) : 1 ≤ costJ v := by
  cases v <;> simp [costJ]

/-- Every serialization starts with one of the value-dispatch characters. -/
theorem stringifyL_head (v : Json) :
    ∃ h t, stringifyL v = h :: t ∧
      (h = 'n' ∨ h = 't' ∨ h = 'f' ∨ h.isDigit = true ∨ h = '-' ∨ h = qC ∨ h = '[' ∨ h = lbC) := by
  cases v with
  | null => exact ⟨'n', _, rfl, by simp⟩
  | bool b =>
    cases b
    · exact ⟨'f', _, rfl, by simp⟩
    · exact ⟨'t', _, rfl, by simp⟩
  | num m e =>
    show ∃ h t, numChars m e = h :: t ∧ _
    unfold JsonStr.numChars
    by_cases hm : m < 0
    · rw [if_pos hm]
      exact ⟨'-', _, rfl, by simp⟩
    · rw [if_neg hm]
      obtain ⟨h, t, hht, hd⟩ := natNumChars_cons m.natAbs e
      exact ⟨h, t, hht, by simp [hd]⟩
  | str s => exact ⟨qC, _, rfl, by simp⟩
  | arr es => exact ⟨'[', _, rfl, by simp⟩
  | obj ms => exact ⟨lbC, _, rfl, by simp⟩

theorem head_ne_closers {h : Char}
    (hset : h = 'n' ∨ h = 't' ∨ h = 'f' ∨ h.isDigit = true ∨ h = '-' ∨ h = qC ∨ h = '[' ∨ h = lbC) :
    h ≠ ']' ∧ h ≠ rbC := by
  rcases hset with rfl | rfl | rfl | hd | rfl | rfl | rfl | rfl
  · exact ⟨by decide, by decide⟩
  · exact ⟨by decide, by decide⟩
  · exact ⟨by decide, by decide⟩
  · exact ⟨ne_of_isDigit hd (by decide), ne_of_isDigit hd (by decide)⟩
  · exact ⟨by decide, by decide⟩
  · exact ⟨by decide, by decide⟩
  · exact ⟨by decide, by decide⟩
  · exact ⟨by decide, by decide⟩

/-- The parser inverts the serializer, given enough fuel and a rest that
cannot extend a number. -/
theorem parse_round (fuel : ℕ) :
    (∀ v rest, costJ v ≤ fuel → numDelim rest →
      parseJ fuel (stringifyL v ++ rest) = some (v, rest)) ∧
    (∀ vs rest, vs ≠ [] → costArr vs ≤ fuel →
      parseArr fuel (stringifyArrBody vs ++ ']' :: rest) = some (vs, rest)) ∧
    (∀ ms rest, ms ≠ [] → costObj ms ≤ fuel →
      parseObj fuel (stringifyObjBody ms ++ rbC :: rest) = some (ms, rest)) := by
  induction fuel with
  | zero =>
    refine ⟨fun v rest hc _ => absurd hc (by have := costJ_pos v; omega), ?_, ?_⟩
    · rintro (_ | ⟨v1, vs'⟩) rest hne hc
      · cases hne rfl
      · simp [costArr] at hc
    · rintro (_ | ⟨⟨k, v⟩, ms'⟩) rest hne hc
      · cases hne rfl
      · simp [costObj] at hc
  | succ fuel ih =>
    obtain ⟨ihJ, ihA, ihO⟩ := ih
    have P1 : ∀ v rest, costJ v ≤ fuel + 1 → numDelim rest →
        parseJ (fuel + 1) (stringifyL v ++ rest) = some (v, rest) := by
      intro v rest hcost hdelim
      cases v with
      | null =>
        show parseJ (fuel + 1) (('n' :: 'u' :: 'l' :: 'l' :: []) ++ rest) = _
        simp only [List.cons_append, List.nil_append]
        rw [parseJ_head_n, stripLit_ull]
      | bool b =>
        cases b
        · show parseJ (fuel + 1) (('f' :: 'a' :: 'l' :: 's' :: 'e' :: []) ++ rest) = _
          simp only [List.cons_append, List.nil_append]
          rw [parseJ_head_f, stripLit_alse]
        · show parseJ (fuel + 1) (('t' :: 'r' :: 'u' :: 'e' :: []) ++ rest) = _
          simp only [List.cons_append, List.nil_append]
          rw [parseJ_head_t, stripLit_rue]
      | num m e =>
        show parseJ (fuel + 1) (numChars m e ++ rest) = _
        by_cases hm : m < 0
        · rw [show numChars m e = '-' :: natNumChars m.natAbs e from by
            unfold JsonStr.numChars; rw [if_pos hm]]
          rw [List.cons_append, parseJ_head_dash,
            parseNumNat_natNumChars m.natAbs e rest hdelim]
          show some (Json.num (-((m.natAbs : ℤ))) e, rest) = some (Json.num m e, rest)
          have : -((m.natAbs : ℤ)) = m := by omega
          rw [this]
        · rw [show numChars m e = natNumChars m.natAbs e from by
            unfold JsonStr.numChars; rw [if_neg hm]]
          obtain ⟨h, t, hht, hdig⟩ := natNumChars_cons m.natAbs e
          rw [hht, List.cons_append, parseJ_head_digit fuel _ hdig, ← List.cons_append, ← hht,
            parseNumNat_natNumChars m.natAbs e rest hdelim]
          show some (Json.num ((m.natAbs : ℤ)) e, rest) = some (Json.num m e, rest)
          have : ((m.natAbs : ℤ)) = m := by omega
          rw [this]
      | str s =>
        show parseJ (fuel + 1) ((qC :: escapeChars s.data ++ [qC]) ++ rest) = _
        have : (qC :: escapeChars s.data ++ [qC]) ++ rest
            = qC :: (escapeChars s.data ++ qC :: rest) := by simp
        rw [this, parseJ_head_qC, parseStrBody_escape]
      | arr es =>
        cases es with
        | nil =>
          show parseJ (fuel + 1) (('[' :: stringifyArrBody [] ++ [']']) ++ rest) = _
          rw [show ('[' :: stringifyArrBody [] ++ [']']) ++ rest = '[' :: ']' :: rest from by
            simp [stringifyArrBody]]
          rw [parseJ_head_lsq, parseArrStart_rsq]
        | cons v1 vs =>
          show parseJ (fuel + 1) (('[' :: stringifyArrBody (v1 :: vs) ++ [']']) ++ rest) = _
          rw [show ('[' :: stringifyArrBody (v1 :: vs) ++ [']']) ++ rest
              = '[' :: (stringifyArrBody (v1 :: vs) ++ ']' :: rest) from by simp]
          rw [parseJ_head_lsq]
          have hbody : ∃ h t, stringifyArrBody (v1 :: vs) ++ ']' :: rest = h :: t ∧
              stringifyArrBody (v1 :: vs) ++ ']' :: rest = h :: t ∧ h ≠ ']' ∧ h ≠ rbC := by
            obtain ⟨h, t, hht, hset⟩ := stringifyL_head v1
            obtain ⟨hne1, hne2⟩ := head_ne_closers hset
            cases vs with
            | nil =>
              refine ⟨h, t ++ ']' :: rest, ?_, ?_, hne1, hne2⟩ <;>
                simp [stringifyArrBody, hht]
            | cons v2 vs' =>
              refine ⟨h, t ++ ',' :: stringifyArrBody (v2 :: vs') ++ ']' :: rest, ?_, ?_, hne1, hne2⟩ <;>
                simp [stringifyArrBody, hht]
          obtain ⟨h, t, hht, _, hne1, _⟩ := hbody
          rw [hht, parseArrStart_ne fuel t hne1, ← hht]
          have hcost' : costArr (v1 :: vs) ≤ fuel := by
            simp only [costJ] at hcost
            omega
          rw [ihA (v1 :: vs) rest (by simp) hcost']
      | obj ms =>
        cases ms with
        | nil =>
          show parseJ (fuel + 1) ((lbC :: stringifyObjBody [] ++ [rbC]) ++ rest) = _
          rw [show (lbC :: stringifyObjBody [] ++ [rbC]) ++ rest = lbC :: rbC :: rest from by
            simp [stringifyObjBody]]
          rw [parseJ_head_lbC, parseObjStart_rbC]
        | cons m1 ms' =>
          show parseJ (fuel + 1) ((lbC :: stringifyObjBody (m1 :: ms') ++ [rbC]) ++ rest) = _
          rw [show (lbC :: stringifyObjBody (m1 :: ms') ++ [rbC]) ++ rest
              = lbC :: (stringifyObjBody (m1 :: ms') ++ rbC :: rest) from by simp]
          rw [parseJ_head_lbC]
          have hbody : ∃ t, stringifyObjBody (m1 :: ms') ++ rbC :: rest = qC :: t := by
            obtain ⟨k, v⟩ := m1
            cases ms' with
            | nil =>
              refine ⟨escapeChars k.data ++ qC :: ':' :: stringifyL v ++ rbC :: rest, ?_⟩
              simp [stringifyObjBody]
            | cons m2 ms'' =>
              refine ⟨escapeChars k.data ++ qC :: ':' :: stringifyL v
                ++ ',' :: (stringifyObjBody (m2 :: ms'') ++ rbC :: rest), ?_⟩
              simp [stringifyObjBody]
          obtain ⟨t, hht⟩ := hbody
          rw [hht, parseObjStart_ne fuel t (by decide), ← hht]
          have hcost' : costObj (m1 :: ms') ≤ fuel := by
            simp only [costJ] at hcost
            omega
          rw [ihO (m1 :: ms') rest (by simp) hcost']
    refine ⟨P1, ?_, ?_⟩
    · intro vs rest hne hcost
      cases vs with
      | nil => cases hne rfl
      | cons v1 vs' =>
        have hc1 : costJ v1 ≤ fuel + 1 := by
          simp only [costArr] at hcost
          omega
        cases vs' with
        | nil =>
          show parseArr (fuel + 1) (stringifyL v1 ++ ']' :: rest) = _
          simp only [parseArr]
          rw [P1 v1 (']' :: rest) hc1 (numDelim_cons rest (by decide) (by decide))]
          rfl
        | cons v2 vs'' =>
          show parseArr (fuel + 1)
            ((stringifyL v1 ++ ',' :: stringifyArrBody (v2 :: vs'')) ++ ']' :: rest) = _
          rw [show (stringifyL v1 ++ ',' :: stringifyArrBody (v2 :: vs'')) ++ ']' :: rest
              = stringifyL v1 ++ ',' :: (stringifyArrBody (v2 :: vs'') ++ ']' :: rest) from by
            simp]
          simp only [parseArr]
          rw [P1 v1 _ hc1 (numDelim_cons _ (by decide) (by decide))]
          have hcost' : costArr (v2 :: vs'') ≤ fuel := by
            simp only [costArr] at hcost ⊢
            omega
          show (match parseArr fuel (stringifyArrBody (v2 :: vs'') ++ ']' :: rest) with
            | some (vs, r3) => some (v1 :: vs, r3)
            | none => none) = some (v1 :: v2 :: vs'', rest)
          rw [ihA (v2 :: vs'') rest (by simp) hcost']
    · intro ms rest hne hcost
      cases ms with
      | nil => cases hne rfl
      | cons m1 ms' =>
        obtain ⟨k, v⟩ := m1
        have hcv : costJ v ≤ fuel + 1 := by
          simp only [costObj] at hcost
          omega
        cases ms' with
        | nil =>
          show parseObj (fuel + 1)
            ((qC :: escapeChars k.data ++ qC :: ':' :: stringifyL v) ++ rbC :: rest) = _
          rw [show (qC :: escapeChars k.data ++ qC :: ':' :: stringifyL v) ++ rbC :: rest
              = qC :: (escapeChars k.data ++ qC :: (':' :: (stringifyL v ++ rbC :: rest))) from by
            simp]
          simp only [parseObj]
          rw [parseStrBody_escape k.data (':' :: (stringifyL v ++ rbC :: rest))]
          simp only []
          rw [P1 v (rbC :: rest) hcv (numDelim_cons rest (by decide) (by decide))]
          rfl
        | cons m2 ms'' =>
          show parseObj (fuel + 1)
            (((qC :: escapeChars k.data ++ qC :: ':' :: stringifyL v)
              ++ ',' :: stringifyObjBody (m2 :: ms'')) ++ rbC :: rest) = _
          rw [show ((qC :: escapeChars k.data ++ qC :: ':' :: stringifyL v)
                ++ ',' :: stringifyObjBody (m2 :: ms'')) ++ rbC :: rest
              = qC :: (escapeChars k.data ++ qC ::
                  (':' :: (stringifyL v ++ ',' :: (stringifyObjBody (m2 :: ms'') ++ rbC :: rest)))) from by
            simp]
          simp only [parseObj]
          rw [parseStrBody_escape]
          simp only []
          rw [P1 v _ hcv (numDelim_cons _ (by decide) (by decide))]
          have hcost' : costObj (m2 :: ms'') ≤ fuel := by
            simp only [costObj] at hcost ⊢
            omega
          show (match parseObj fuel (stringifyObjBody (m2 :: ms'') ++ rbC :: rest) with
            | some (ms, r5) => some ((k, v) :: ms, r5)
            | none => none) = some ((k, v) :: m2 :: ms'', rest)
          rw [ihO (m2 :: ms'') rest (by simp) hcost']

theorem parseJoined_round (vs : List Json) :
    ∀ fuel, costJoined vs ≤ fuel → parseJoined fuel (fingerprintJoinedChars vs) = some vs := by
  induction vs with
  | nil =>
    intro fuel _
    cases fuel <;> simp [parseJoined, fingerprintJoinedChars]
  | cons v vs' ih =>
    intro fuel hcost
    have hfuel : 1 ≤ fuel := by
      simp only [costJoined] at hcost
      omega
    obtain ⟨f, rfl⟩ : ∃ f, fuel = f + 1 := ⟨fuel - 1, by omega⟩
    have hcv : costJ v ≤ f + 1 := by
      simp only [costJoined] at hcost
      omega
    cases vs' with
    | nil =>
      show parseJoined (f + 1) (fingerprintJoinedChars [v]) = some [v]
      obtain ⟨h, t, hht, _⟩ := stringifyL_head v
      rw [show fingerprintJoinedChars [v] = stringifyL v from rfl, hht]
      simp only [parseJoined]
      rw [← hht, show stringifyL v = stringifyL v ++ [] from by simp,
        parse_round (f + 1) |>.1 v [] hcv numDelim_nil]
    | cons v2 vs'' =>
      show parseJoined (f + 1)
        (stringifyL v ++ '|' :: fingerprintJoinedChars (v2 :: vs'')) = some (v :: v2 :: vs'')
      obtain ⟨h, t, hht, _⟩ := stringifyL_head v
      rw [hht, List.cons_append]
      simp only [parseJoined]
      rw [← List.cons_append, ← hht,
        parse_round (f + 1) |>.1 v ('|' :: fingerprintJoinedChars (v2 :: vs'')) hcv
          (numDelim_cons _ (by decide) (by decide))]
      have hcost' : costJoined (v2 :: vs'') ≤ f := by
        simp only [costJoined] at hcost ⊢
        omega
      show (match parseJoined f (fingerprintJoinedChars (v2 :: vs'')) with
        | some vs => some (v :: vs)
        | none => none) = some (v :: v2 :: vs'')
      rw [ih f hcost']

/-- The character-level joined serialization is injective. -/
theorem fingerprintJoinedChars_injective (vs1 vs2 : List Json)
    (h : fingerprintJoinedChars vs1 = fingerprintJoinedChars vs2) : vs1 = vs2 := by
  have h1 := parseJoined_round vs1 (max (costJoined vs1) (costJoined vs2)) (le_max_left _ _)
  have h2 := parseJoined_round vs2 (max (costJoined vs1) (costJoined vs2)) (le_max_right _ _)
  rw [h] at h1
  rw [h1] at h2
  exact Option.some.inj h2

theorem runExperiment_append (st : ExpState) (l1 l2 : List TestCase) :
    runExperiment st (l1 ++ l2) = runExperiment (runExperiment st l1) l2 :=
  List.foldl_append _ _ _ _

theorem runTestStep_fail (st : ExpState) (t : TestCase)
    (h : t.outcome = .throws ∨ t.outcome = .nullish) :
    runTestStep st t = { st with failedTests := st.failedTests ++ [t.displayName] } := by
  obtain ⟨key, d, outcome⟩ := t
  rcases h with h | h <;> (simp at h; subst h; rfl)

theorem runTestStep_totalEntropy (st : ExpState) (t : TestCase) :
    (runTestStep st t).totalEntropy = st.totalEntropy + stepEntropy t := by
  obtain ⟨key, d, outcome⟩ := t
  cases outcome <;> simp [runTestStep, stepEntropy]

theorem runTestStep_successfulTests (st : ExpState) (t : TestCase) :
    (runTestStep st t).successfulTests = st.successfulTests + stepSucc t := by
  obtain ⟨key, d, outcome⟩ := t
  cases outcome <;> simp [runTestStep, stepSucc]

theorem runTestStep_fingerprintValues (st : ExpState) (t : TestCase) :
    (runTestStep st t).fingerprintValues = st.fingerprintValues ++ stepValues t := by
  obtain ⟨key, d, outcome⟩ := t
  cases outcome <;> simp [runTestStep, stepValues]

theorem runTestStep_failedTests (st : ExpState) (t : TestCase) :
    (runTestStep st t).failedTests = st.failedTests ++ stepFails t := by
  obtain ⟨key, d, outcome⟩ := t
  cases outcome <;> simp [runTestStep, stepFails]

theorem runExperiment_totalEntropy (ts : List TestCase) :
    ∀ st : ExpState, (runExperiment st ts).totalEntropy
      = st.totalEntropy + ((ts.map stepEntropy).sum) := by
  induction ts with
  | nil => intro st; simp [runExperiment]
  | cons t ts ih =>
    intro st
    show (runExperiment (runTestStep st t) ts).totalEntropy = _
    rw [ih, runTestStep_totalEntropy]
    simp
    ring

theorem runExperiment_successfulTests (ts : List TestCase) :
    ∀ st : ExpState, (runExperiment st ts).successfulTests
      = st.successfulTests + ((ts.map stepSucc).sum) := by
  induction ts with
  | nil => intro st; simp [runExperiment]
  | cons t ts ih =>
    intro st
    show (runExperiment (runTestStep st t) ts).successfulTests = _
    rw [ih, runTestStep_successfulTests]
    simp
    omega

theorem runExperiment_fingerprintValues (ts : List TestCase) :
    ∀ st : ExpState, (runExperiment st ts).fingerprintValues
      = st.fingerprintValues ++ ts.flatMap stepValues := by
  induction ts with
  | nil => intro st; simp [runExperiment]
  | cons t ts ih =>
    intro st
    show (runExperiment (runTestStep st t) ts).fingerprintValues = _
    rw [ih, runTestStep_fingerprintValues]
    simp

theorem runExperiment_failedTests (ts : List TestCase) :
    ∀ st : ExpState, (runExperiment st ts).failedTests
      = st.failedTests ++ ts.flatMap stepFails := by
  induction ts with
  | nil => intro st; simp [runExperiment]
  | cons t ts ih =>
    intro st
    show (runExperiment (runTestStep st t) ts).failedTests = _
    rw [ih, runTestStep_failedTests]
    simp

/-- Every percent and resolved default percent in the program's tables lies
in `(0, 100]`. -/
theorem programTables_percents :
    ∀ ds ∈ programTables, (∀ kp ∈ ds.data, 0 < kp.2 ∧ kp.2 ≤ 100)
      ∧ 0 < jsOrOne ds.defaultPercent ∧ jsOrOne ds.defaultPercent ≤ 100 := by
  with_unfolding_all decide

theorem lookup_mem_values {l : List (String × ℚ)} {a : String} {b : ℚ}
    (h : l.lookup a = some b) : ∃ k, (k, b) ∈ l := by
  induction l with
  | nil => cases h
  | cons kp l ih =>
    obtain ⟨k, p⟩ := kp
    simp only [List.lookup] at h
    cases hbeq : (a == k)
    · rw [hbeq] at h
      obtain ⟨k', hk'⟩ := ih h
      exact ⟨k', List.mem_cons_of_mem _ hk'⟩
    · rw [hbeq] at h
      simp at h
      exact ⟨k, by simp [h]⟩

theorem lookupMarketShare_eq (ds : DataSource) (v : String) :
    lookupMarketShare ds v =
      match ds.data.lookup v.trim with
      | some p => ⟨p, ds.source, ds.estimatedFlag⟩
      | none =>
        match ds.data.find? (partialMatchKey v.trim) with
        | some kp => ⟨kp.2, ds.source, ds.estimatedFlag⟩
        | none => ⟨jsOrOne ds.defaultPercent, ds.source, true⟩ := rfl

theorem lookupMarketShare_percent_range (ds : DataSource)
    (hds : ∀ kp ∈ ds.data, 0 < kp.2 ∧ kp.2 ≤ 100)
    (hdef : 0 < jsOrOne ds.defaultPercent ∧ jsOrOne ds.defaultPercent ≤ 100)
    (v : String) :
    0 < (lookupMarketShare ds v).percent ∧ (lookupMarketShare ds v).percent ≤ 100 := by
  rw [lookupMarketShare_eq]
  cases hlk : ds.data.lookup v.trim with
  | some p =>
    obtain ⟨k, hk⟩ := lookup_mem_values hlk
    exact hds (k, p) hk
  | none =>
    cases hfd : ds.data.find? (partialMatchKey v.trim) with
    | some kp => exact hds kp (List.mem_of_find?_eq_some hfd)
    | none => exact hdef

theorem percentToEntropy_nonneg {p : ℝ} (h : p ≤ 100) : 0 ≤ percentToEntropy p := by
  unfold percentToEntropy
  by_cases hp : p ≤ 0
  · rw [if_pos hp]
    norm_num
  · rw [if_neg hp]
    push_neg at hp
    exact Real.logb_nonneg (by norm_num) ((one_le_div hp).2 (by linarith))

/-- Every baseline record's bits are nonnegative. -/
theorem baseline_bits_nonneg : ∀ kr ∈ BASELINE_ENTROPY, 0 ≤ (kr.2 : BaselineRecord).bits := by
  with_unfolding_all decide

theorem programEntropyVal_nonneg {e : ℝ} (h : programEntropyVal e) : 0 ≤ e := by
  rcases h with ⟨ds, hds, v, rfl⟩ | ⟨kr, hkr, rfl⟩ | rfl | rfl | rfl
  · obtain ⟨hr, hd⟩ := programTables_percents ds hds
    obtain ⟨_, h100⟩ := lookupMarketShare_percent_range ds hr hd v
    apply percentToEntropy_nonneg
    have : ((lookupMarketShare ds v).percent : ℝ) ≤ ((100 : ℚ) : ℝ) := by
      exact_mod_cast h100
    simpa using this
  · have := baseline_bits_nonneg kr hkr
    positivity
  · have : (0 : ℚ) ≤ webglRendererBaseline.bits := by
      with_unfolding_all decide
    have h1 : (0 : ℝ) ≤ (webglRendererBaseline.bits : ℝ) := by exact_mod_cast this
    nlinarith
  · have h1 : (0 : ℚ) ≤ webglRendererBaseline.bits := by
      with_unfolding_all decide
    have h2 : (0 : ℚ) ≤ webglVendorBaseline.bits := by
      with_unfolding_all decide
    have h1' : (0 : ℝ) ≤ (webglRendererBaseline.bits : ℝ) := by exact_mod_cast h1
    have h2' : (0 : ℝ) ≤ (webglVendorBaseline.bits : ℝ) := by exact_mod_cast h2
    linarith
  · norm_num

theorem stepEntropy_nonneg {t : TestCase} (h : validStep t) : 0 ≤ stepEntropy t := by
  obtain ⟨key, d, outcome⟩ := t
  cases outcome with
  | throws => simp [stepEntropy]
  | nullish => simp [stepEntropy]
  | success r => exact programEntropyVal_nonneg (h r rfl)

/-- C2 (counterexample): on input `0.37` the disambiguator does not fall
through to the low-confidence default (base 1, scale 37): `1.25 × 30% =
0.375` lies within the `0.015` tolerance, so a medium-confidence match is
returned instead. -/
theorem spec_C2_counterexample :
    ¬((analyzePixelRatio 0.37).trueDPR = 1 ∧ (analyzePixelRatio 0.37).zoomPercent = 37
      ∧ (analyzePixelRatio 0.37).confidence = Confidence.low
      ∧ (analyzePixelRatio 0.37).isZoomed = true) := by
  have h : analyzePixelRatio 0.37 = ⟨0.37, 1.25, 30, true, .medium, "1.25"⟩ := by
    with_unfolding_all rfl
  rw [h]
  rintro ⟨h1, h2, h3, h4⟩
  cases h3

/-- C2 (amended): the pixel-ratio disambiguator returns, for input `2.0`,
base 2.0 / scale 100% / high confidence / not scaled; for input `1.1`, base
1.0 / scale 110% / medium confidence / scaled; and for input `0.37` — which
does have a canonical match, `1.25 × 30% = 0.375` within tolerance `0.015` —
base 1.25 / scale 30% / medium confidence / scaled, rather than the
low-confidence default tier. -/
theorem spec_C2_pixel_examples :
    analyzePixelRatio 2 = ⟨2, 2, 100, false, .high, "2"⟩
    ∧ analyzePixelRatio 1.1 = ⟨1.1, 1, 110, true, .medium, "1"⟩
    ∧ analyzePixelRatio 0.37 = ⟨0.37, 1.25, 30, true, .medium, "1.25"⟩ := by
  refine ⟨?_, ?_, ?_⟩ <;> with_unfolding_all rfl

/-- C3: the `'|'`-joined `JSON.stringify` serialization that
`generateFingerprintHash` passes to the hash function is injective: distinct
ordered value lists always produce distinct joined strings. -/
theorem spec_C3_join_injective :
    ∀ values1 values2 : List Json, values1 ≠ values2 →
      fingerprintJoined values1 ≠ fingerprintJoined values2 := by
  intro v1 v2 hne heq
  apply hne
  apply fingerprintJoinedChars_injective
  have hdata := congrArg String.data heq
  simpa [fingerprintJoined] using hdata

/-- C3 witness. -/
theorem spec_C3_witness : fingerprintJoined [Json.null] ≠ fingerprintJoined [] :=
  spec_C3_join_injective [Json.null] [] (by simp)

/-- C5: `percentToEntropy` is `log2(100/percent)` for positive percents
(`2.0` bits at 25%, `0.0` bits at 100%), and both it and `percentToOneInX`
clamp non-positive percents to the finite values `10` and `1000`. -/
theorem spec_C5_entropy_formula :
    (∀ p : ℝ, 0 < p → percentToEntropy p = Real.logb 2 (100 / p))
    ∧ percentToEntropy 25 = 2
    ∧ percentToEntropy 100 = 0
    ∧ (∀ p : ℝ, p ≤ 0 → percentToEntropy p = 10 ∧ percentToOneInX p = 1000) := by
  refine ⟨?_, ?_, ?_, ?_⟩
  · intro p hp
    unfold percentToEntropy
    rw [if_neg (not_le.2 hp)]
  · unfold percentToEntropy
    rw [if_neg (by norm_num)]
    rw [show (100 : ℝ) / 25 = (2 : ℝ) ^ ((2 : ℕ) : ℝ) from by
      rw [Real.rpow_natCast]
      norm_num]
    rw [Real.logb_rpow (by norm_num) (by norm_num)]
    norm_num
  · unfold percentToEntropy
    rw [if_neg (by norm_num)]
    rw [show (100 : ℝ) / 100 = 1 from by norm_num, Real.logb_one]
  · intro p hp
    unfold percentToEntropy percentToOneInX
    rw [if_pos hp, if_pos hp]
    exact ⟨rfl, rfl⟩

/-- C5 witness. -/
theorem spec_C5_witness :
    percentToEntropy 25 = Real.logb 2 (100 / 25)
    ∧ (percentToEntropy (-1) = 10 ∧ percentToOneInX (-1) = 1000) :=
  ⟨spec_C5_entropy_formula.1 25 (by norm_num),
   spec_C5_entropy_formula.2.2.2 (-1) (by norm_num)⟩

theorem find?_pre_first {α} (p : α → Bool) (pre suf : List α) (x : α)
    (hpre : ∀ a ∈ pre, p a = false) (hx : p x = true) :
    (pre ++ x :: suf).find? p = some x := by
  induction pre with
  | nil => exact List.find?_cons_of_pos _ hx
  | cons a pre ih =>
    rw [List.cons_append, List.find?_cons_of_neg _ (by simp [hpre a (by simp)])]
    exact ih (fun b hb => hpre b (by simp [hb]))

/-- C4: `lookupMarketShare` implements the three-tier, first-match-wins
resolution: an exact key match on the trimmed value returns that key's
percent un-estimated; otherwise the first key in insertion order related to
the value by substring containment (in either direction) returns its percent
un-estimated; otherwise the table's default percent is returned estimated. -/
theorem spec_C4_lookup_tiers :
    ∀ (ds : DataSource) (value : String), ds.estimatedFlag = false →
      (∀ p, ds.data.lookup value.trim = some p →
        lookupMarketShare ds value = ⟨p, ds.source, false⟩)
      ∧ (∀ pre kp suf, ds.data.lookup value.trim = none →
          ds.data = pre ++ kp :: suf →
          (∀ kp2 ∈ pre, partialMatchKey value.trim kp2 = false) →
          partialMatchKey value.trim kp = true →
          lookupMarketShare ds value = ⟨kp.2, ds.source, false⟩)
      ∧ (ds.data.lookup value.trim = none →
          (∀ kp ∈ ds.data, partialMatchKey value.trim kp = false) →
          lookupMarketShare ds value = ⟨jsOrOne ds.defaultPercent, ds.source, true⟩) := by
  intro ds v hflag
  refine ⟨?_, ?_, ?_⟩
  · intro p hp
    rw [lookupMarketShare_eq, hp, hflag]
  · intro pre kp suf hnone hdata hpre hkp
    rw [lookupMarketShare_eq, hnone]
    have hfind : ds.data.find? (partialMatchKey v.trim) = some kp := by
      rw [hdata]
      exact find?_pre_first _ pre suf kp hpre hkp
    rw [hfind, hflag]
  · intro hnone hall
    rw [lookupMarketShare_eq, hnone,
      List.find?_eq_none.2 (fun kp hkp => by simp [hall kp hkp])]

/-- C4 witness: an exact hit on the screen-resolution table, a partial hit of
a long Chrome user-agent prefix on the browser table's first key, and a
default-tier miss on the GPU table. -/
theorem spec_C4_witness :
    lookupMarketShare SCREEN_RESOLUTION_DATA "1920x1080"
      = ⟨23, SCREEN_RESOLUTION_DATA.source, false⟩
    ∧ lookupMarketShare BROWSER_DATA "Chrome 120.0.6099.130"
      = ⟨65, BROWSER_DATA.source, false⟩
    ∧ lookupMarketShare GPU_DATA "zzz"
      = ⟨jsOrOne GPU_DATA.defaultPercent, GPU_DATA.source, true⟩ :=
  ⟨(spec_C4_lookup_tiers SCREEN_RESOLUTION_DATA "1920x1080" rfl).1 23
      (by with_unfolding_all decide),
   (spec_C4_lookup_tiers BROWSER_DATA "Chrome 120.0.6099.130" rfl).2.1
      [] ("Chrome", 65)
      [("Safari", 18), ("Edge", 5), ("Firefox", 3), ("Opera", 2)]
      (by with_unfolding_all decide) rfl (by simp) (by with_unfolding_all decide),
   (spec_C4_lookup_tiers GPU_DATA "zzz" rfl).2.2
      (by with_unfolding_all decide) (by with_unfolding_all decide)⟩

/-- C9: on any table whose first key is `(k, p)`, with no empty-string key
and the `estimated` flag unset, a value that trims to the empty string hits
the partial-match tier at the very first key (every key contains the empty
string), returning `p` with `estimated = false`; the default tier is
unreachable for such values. -/
theorem spec_C9_empty_partial :
    ∀ (ds : DataSource) (value : String) (k : String) (p : ℚ) (suf : List (String × ℚ)),
      ds.estimatedFlag = false → ds.data = (k, p) :: suf →
      ds.data.lookup "" = none → value.trim = "" →
      lookupMarketShare ds value = ⟨p, ds.source, false⟩
      ∧ (lookupMarketShare ds value).estimated ≠ true := by
  intro ds v k p suf hflag hdata hnone htrim
  have hmain : lookupMarketShare ds v = ⟨p, ds.source, false⟩ := by
    rw [lookupMarketShare_eq, htrim, hnone]
    have hfind : ds.data.find? (partialMatchKey "") = some (k, p) := by
      rw [hdata]
      apply List.find?_cons_of_pos
      show partialMatchKey "" (k, p) = true
      unfold partialMatchKey
      rw [Bool.or_eq_true]
      right
      show strIncludes k "" = true
      unfold strIncludes
      apply decide_eq_true
      exact ⟨[], k.data, by simp⟩
    rw [hfind, hflag]
  refine ⟨hmain, ?_⟩
  rw [hmain]
  simp

/-- C9 witness: a whitespace-only value against the screen-resolution table
returns the first key's 23 percent, un-estimated. -/
theorem spec_C9_witness :
    lookupMarketShare SCREEN_RESOLUTION_DATA "  "
      = ⟨23, SCREEN_RESOLUTION_DATA.source, false⟩
    ∧ (lookupMarketShare SCREEN_RESOLUTION_DATA "  ").estimated ≠ true :=
  spec_C9_empty_partial SCREEN_RESOLUTION_DATA "  " "1920x1080" 23
    [("1366x768", 19), ("1536x864", 8), ("1440x900", 5), ("1280x720", 4),
     ("2560x1440", 4), ("1600x900", 3), ("1280x800", 3), ("3840x2160", 2)]
    rfl rfl (by with_unfolding_all decide) (by with_unfolding_all decide)

/-- C6: along any orchestration sequence whose successful observations carry
entropy values produced by the program's own tests and reference data
(table-lookup entropies, baseline bits, the webgl combinations, or the
1.0-bit fallback — all nonnegative), the accumulated `totalEntropy` after
step `n+1` is at least its value after step `n`. -/
theorem spec_C6_monotonic :
    ∀ (st : ExpState) (ts : List TestCase), (∀ t ∈ ts, validStep t) →
      ∀ n : ℕ, (runExperiment st (ts.take n)).totalEntropy
        ≤ (runExperiment st (ts.take (n + 1))).totalEntropy := by
  intro st ts hvalid n
  rw [runExperiment_totalEntropy, runExperiment_totalEntropy]
  rcases le_or_lt ts.length n with h | h
  · rw [List.take_of_length_le h, List.take_of_length_le (by omega)]
  · rw [List.take_succ, List.getElem?_eq_getElem h]
    have hnn : 0 ≤ stepEntropy ts[n] :=
      stepEntropy_nonneg (hvalid _ (List.getElem_mem h))
    simp only [Option.toList_some, List.map_append, List.sum_append, List.map_cons,
      List.map_nil, List.sum_cons, List.sum_nil]
    linarith

/-- C6 witness: a single successful observation carrying the program's
1.0-bit fallback entropy. -/
theorem spec_C6_witness :
    (∀ t ∈ [(⟨"x", "X", .success ⟨Json.null, some ⟨none, none, "L", true, 1, 2, none⟩, none⟩⟩ :
        TestCase)], validStep t) ∧
    (runExperiment initialState
        ([(⟨"x", "X", .success ⟨Json.null, some ⟨none, none, "L", true, 1, 2, none⟩, none⟩⟩ :
          TestCase)].take 0)).totalEntropy
      ≤ (runExperiment initialState
        ([(⟨"x", "X", .success ⟨Json.null, some ⟨none, none, "L", true, 1, 2, none⟩, none⟩⟩ :
          TestCase)].take (0 + 1))).totalEntropy := by
  have hv : ∀ t ∈ [(⟨"x", "X", .success ⟨Json.null, some ⟨none, none, "L", true, 1, 2, none⟩, none⟩⟩ :
      TestCase)], validStep t := by
    intro t ht r hr
    simp at ht
    subst ht
    cases hr
    exact Or.inr (Or.inr (Or.inr (Or.inr rfl)))
  exact ⟨hv, spec_C6_monotonic initialState _ hv 0⟩

/-- C7: a probe that throws or returns null never derails the run: it only
appends its display name to the failure list; it contributes no entropy, no
success count and no fingerprint value; and the remaining tests are
processed exactly as they would have been. -/
theorem spec_C7_resilience :
    ∀ (init : ExpState) (pre : List TestCase) (t : TestCase) (suf : List TestCase),
      (t.outcome = .throws ∨ t.outcome = .nullish) →
      (runExperiment init (pre ++ t :: suf)
        = runExperiment { runExperiment init pre with
            failedTests := (runExperiment init pre).failedTests ++ [t.displayName] } suf)
      ∧ t.displayName ∈ (runExperiment init (pre ++ t :: suf)).failedTests
      ∧ (runExperiment init (pre ++ t :: suf)).totalEntropy
          = (runExperiment init (pre ++ suf)).totalEntropy
      ∧ (runExperiment init (pre ++ t :: suf)).successfulTests
          = (runExperiment init (pre ++ suf)).successfulTests
      ∧ (runExperiment init (pre ++ t :: suf)).fingerprintValues
          = (runExperiment init (pre ++ suf)).fingerprintValues := by
  intro init pre t suf h
  have hstep : stepEntropy t = 0 ∧ stepSucc t = 0 ∧ stepValues t = []
      ∧ stepFails t = [t.displayName] := by
    obtain ⟨key, d, outcome⟩ := t
    rcases h with h | h <;> (simp at h; subst h; exact ⟨rfl, rfl, rfl, rfl⟩)
  refine ⟨?_, ?_, ?_, ?_, ?_⟩
  · rw [show pre ++ t :: suf = (pre ++ [t]) ++ suf from by simp, runExperiment_append,
      runExperiment_append]
    show runExperiment (runTestStep (runExperiment init pre) t) suf = _
    rw [runTestStep_fail _ _ h]
  · rw [runExperiment_failedTests]
    have : stepFails t = [t.displayName] := hstep.2.2.2
    simp [List.flatMap_append, this]
  · rw [runExperiment_totalEntropy, runExperiment_totalEntropy]
    simp [hstep.1]
  · rw [runExperiment_successfulTests, runExperiment_successfulTests]
    simp [hstep.2.1]
  · rw [runExperiment_fingerprintValues, runExperiment_fingerprintValues]
    simp [List.flatMap_append, hstep.2.2.1]

/-- C7 witness: an audio probe that throws between two other steps. -/
theorem spec_C7_witness :
    (runExperiment initialState
        ([⟨"touchSupport", "Touch Support", .nullish⟩]
          ++ (⟨"audio", "Audio Fingerprint", .throws⟩ : TestCase)
          :: [⟨"connectionType", "Connection Type", .nullish⟩])
      = runExperiment { runExperiment initialState [⟨"touchSupport", "Touch Support", .nullish⟩] with
          failedTests := (runExperiment initialState
            [⟨"touchSupport", "Touch Support", .nullish⟩]).failedTests
              ++ ["Audio Fingerprint"] }
        [⟨"connectionType", "Connection Type", .nullish⟩])
    ∧ "Audio Fingerprint" ∈ (runExperiment initialState
        ([⟨"touchSupport", "Touch Support", .nullish⟩]
          ++ (⟨"audio", "Audio Fingerprint", .throws⟩ : TestCase)
          :: [⟨"connectionType", "Connection Type", .nullish⟩])).failedTests
    ∧ (runExperiment initialState
        ([⟨"touchSupport", "Touch Support", .nullish⟩]
          ++ (⟨"audio", "Audio Fingerprint", .throws⟩ : TestCase)
          :: [⟨"connectionType", "Connection Type", .nullish⟩])).totalEntropy
      = (runExperiment initialState
          ([⟨"touchSupport", "Touch Support", .nullish⟩]
            ++ [⟨"connectionType", "Connection Type", .nullish⟩])).totalEntropy
    ∧ (runExperiment initialState
        ([⟨"touchSupport", "Touch Support", .nullish⟩]
          ++ (⟨"audio", "Audio Fingerprint", .throws⟩ : TestCase)
          :: [⟨"connectionType", "Connection Type", .nullish⟩])).successfulTests
      = (runExperiment initialState
          ([⟨"touchSupport", "Touch Support", .nullish⟩]
            ++ [⟨"connectionType", "Connection Type", .nullish⟩])).successfulTests
    ∧ (runExperiment initialState
        ([⟨"touchSupport", "Touch Support", .nullish⟩]
          ++ (⟨"audio", "Audio Fingerprint", .throws⟩ : TestCase)
          :: [⟨"connectionType", "Connection Type", .nullish⟩])).fingerprintValues
      = (runExperiment initialState
          ([⟨"touchSupport", "Touch Support", .nullish⟩]
            ++ [⟨"connectionType", "Connection Type", .nullish⟩])).fingerprintValues :=
  spec_C7_resilience initialState [⟨"touchSupport", "Touch Support", .nullish⟩]
    ⟨"audio", "Audio Fingerprint", .throws⟩
    [⟨"connectionType", "Connection Type", .nullish⟩] (Or.inl rfl)

/-- C10: when a WebGL context exists but the debug-renderer-info extension
is unavailable, the webgl probe assigns exactly half the webglRenderer
baseline (3.41 × 0.5 = 1.705 bits), marked estimated; when the extension is
present but the GPU lookup is only an estimate, it instead assigns the
combined renderer+vendor baseline (3.41 + 1.82 = 5.23 bits). -/
theorem spec_C10_webgl_degraded :
    ∀ env : WebglEnv, env.glAvailable = true →
      (env.debugInfoAvailable = false →
        ∃ r lk, webglRun env = some r ∧ r.lookup = some lk ∧ lk.estimated = true
          ∧ lk.entropy = (webglRendererBaseline.bits : ℝ) * 0.5 ∧ lk.entropy = 1.705)
      ∧ (env.debugInfoAvailable = true →
          (lookupMarketShare GPU_DATA env.renderer).estimated = true →
        ∃ r lk, webglRun env = some r ∧ r.lookup = some lk ∧ lk.estimated = true
          ∧ lk.entropy = (webglRendererBaseline.bits : ℝ) + (webglVendorBaseline.bits : ℝ)
          ∧ lk.entropy = 5.23) := by
  intro env hgl
  have hb1 : ((3.41 : ℚ) : ℝ) = (3.41 : ℝ) := by norm_num
  have hb2 : ((1.82 : ℚ) : ℝ) = (1.82 : ℝ) := by norm_num
  have he1 : (webglRendererBaseline.bits : ℝ) * 0.5 = 1.705 := by
    rw [show webglRendererBaseline.bits = (3.41 : ℚ) from rfl, hb1]
    norm_num
  have he2 : (webglRendererBaseline.bits : ℝ) + (webglVendorBaseline.bits : ℝ) = 5.23 := by
    rw [show webglRendererBaseline.bits = (3.41 : ℚ) from rfl,
      show webglVendorBaseline.bits = (1.82 : ℚ) from rfl, hb1, hb2]
    norm_num
  constructor
  · intro hdbg
    have hrun : webglRun env = some
        { value := .str env.renderer,
          lookup := some { percent := none,
                           source := some "https://hal.inria.fr/hal-01285470/document",
                           sourceLabel := "AmIUnique 2016 (Table 2)",
                           estimated := true,
                           entropy := (webglRendererBaseline.bits : ℝ) * 0.5,
                           oneInX := entropyToUniqueness ((webglRendererBaseline.bits : ℝ) * 0.5),
                           note := some "Reduced entropy - WebGL debug info not available" },
          entropy := none } := by
      unfold webglRun
      rw [if_neg (by simp [hgl]), if_pos (by simp [hdbg])]
    exact ⟨_, _, hrun, rfl, rfl, rfl, he1⟩
  · intro hdbg hest
    have hrun : webglRun env = some
        { value := .obj [("vendor", .str env.vendor), ("renderer", .str env.renderer)],
          lookup := some { percent := none,
                           source := some "https://hal.inria.fr/hal-01285470/document",
                           sourceLabel := "AmIUnique 2016 (Table 2)",
                           estimated := true,
                           entropy := (webglRendererBaseline.bits : ℝ)
                             + (webglVendorBaseline.bits : ℝ),
                           oneInX := entropyToUniqueness ((webglRendererBaseline.bits : ℝ)
                             + (webglVendorBaseline.bits : ℝ)),
                           note := some "Conservative estimate; HitC 2018 found 5.28 bits" },
          entropy := none } := by
      unfold webglRun
      rw [if_neg (by simp [hgl]), if_neg (by simp [hdbg]), if_neg (by simp [hest])]
    exact ⟨_, _, hrun, rfl, rfl, rfl, he2⟩

/-- C10 witness. -/
theorem spec_C10_witness :
    (∃ r lk, webglRun ⟨true, false, "Google Inc.", "SomeGPU"⟩ = some r ∧ r.lookup = some lk
      ∧ lk.estimated = true ∧ lk.entropy = (webglRendererBaseline.bits : ℝ) * 0.5
      ∧ lk.entropy = 1.705)
    ∧ (∃ r lk, webglRun ⟨true, true, "Google Inc.", "zzz"⟩ = some r ∧ r.lookup = some lk
      ∧ lk.estimated = true
      ∧ lk.entropy = (webglRendererBaseline.bits : ℝ) + (webglVendorBaseline.bits : ℝ)
      ∧ lk.entropy = 5.23) :=
  ⟨(spec_C10_webgl_degraded ⟨true, false, "Google Inc.", "SomeGPU"⟩ rfl).1 rfl,
   (spec_C10_webgl_degraded ⟨true, true, "Google Inc.", "zzz"⟩ rfl).2 rfl
     (by with_unfolding_all decide)⟩

theorem entropyToUniqueness_34 : entropyToUniqueness 34 = 17179869184 := by
  unfold entropyToUniqueness
  rw [show (34 : ℝ) = ((34 : ℕ) : ℝ) from by norm_num, Real.rpow_natCast]
  norm_num

/-- C1 (counterexample): at 34 cumulative bits `2^34 ≈ 1.72e10` already
exceeds `WORLD_POPULATION = 8.3e9`, yet the number `addResultLine` displays
is the uncapped `2^34` (raw value 17 179 869 184, shown as "17.2 billion" =
1.72e10), not `min(2^34, WORLD_POPULATION) = 8.3e9`. -/
theorem spec_C1_counterexample :
    WORLD_POPULATION ≤ entropyToUniqueness 34
    ∧ (addResultLineTotal 34).raw ≠ min (entropyToUniqueness 34) WORLD_POPULATION
    ∧ (addResultLineTotal 34).textValue ≠ min (entropyToUniqueness 34) WORLD_POPULATION := by
  have h34 := entropyToUniqueness_34
  have hge : WORLD_POPULATION ≤ entropyToUniqueness 34 := by
    rw [h34]
    unfold WORLD_POPULATION
    norm_num
  have hmin : min (entropyToUniqueness 34) WORLD_POPULATION = 8300000000 := by
    rw [h34]
    unfold WORLD_POPULATION
    rw [min_eq_right (by norm_num)]
  have hraw : (addResultLineTotal 34).raw = 17179869184 := by
    unfold addResultLineTotal formatNumber
    rw [h34, if_pos (by unfold WORLD_POPULATION; norm_num)]
  have hround : round ((17179869184 : ℝ) / 1000000000 * 10) = 172 := by
    rw [round_eq]
    apply Int.floor_eq_iff.2
    constructor
    · norm_num
    · norm_num
  have htext : (addResultLineTotal 34).textValue = 17200000000 := by
    unfold addResultLineTotal formatNumber
    rw [h34, if_pos (by unfold WORLD_POPULATION; norm_num)]
    show (if (17179869184 : ℝ) ≥ 1000000000000 then _ else _) = _
    rw [if_neg (by norm_num), if_pos (by norm_num), hround]
    norm_num
  refine ⟨hge, ?_, ?_⟩
  · rw [hraw, hmin]
    norm_num
  · rw [htext, hmin]
    norm_num

/-- C1 (amended): once `2^cumulativeBits ≥ WORLD_POPULATION` the per-step
display switches to the unique framing (`isUnique = true`) but the
anonymity-set number it carries is the uncapped `2^cumulativeBits`
(`min(·, WORLD_POPULATION)` capping exists only in `showEndState`'s
potential-uniqueness figures), and the underlying cumulative total is pure
uncapped accumulation of the per-step contributions. -/
theorem spec_C1_display_uncapped :
    (∀ bits : ℝ, WORLD_POPULATION ≤ entropyToUniqueness bits →
      (addResultLineTotal bits).isUnique = true
      ∧ (addResultLineTotal bits).raw = entropyToUniqueness bits)
    ∧ (∀ (st : ExpState) (ts : List TestCase),
        (runExperiment st ts).totalEntropy = st.totalEntropy + (ts.map stepEntropy).sum)
    ∧ (∀ total removed : ℝ,
        (calcPotentialOneInX total removed).raw
          = min (entropyToUniqueness (total - removed)) WORLD_POPULATION
        ∧ (calcPotentialOneInX total removed).raw ≤ WORLD_POPULATION) := by
  refine ⟨?_, ?_, ?_⟩
  · intro bits h
    unfold addResultLineTotal formatNumber
    rw [if_pos h]
    exact ⟨rfl, rfl⟩
  · intro st ts
    rw [runExperiment_totalEntropy]
  · intro t r
    have hraw : (calcPotentialOneInX t r).raw
        = min (entropyToUniqueness (t - r)) WORLD_POPULATION := by
      unfold calcPotentialOneInX formatNumber
      by_cases h : min (entropyToUniqueness (t - r)) WORLD_POPULATION ≥ WORLD_POPULATION
      · rw [if_pos h]
      · rw [if_neg h]
    exact ⟨hraw, by rw [hraw]; exact min_le_right _ _⟩

/-- C1 witness. -/
theorem spec_C1_witness :
    WORLD_POPULATION ≤ entropyToUniqueness 34
    ∧ ((addResultLineTotal 34).isUnique = true
        ∧ (addResultLineTotal 34).raw = entropyToUniqueness 34)
    ∧ (runExperiment initialState []).totalEntropy
        = initialState.totalEntropy + (([] : List TestCase).map stepEntropy).sum
    ∧ ((calcPotentialOneInX 10 2).raw = min (entropyToUniqueness (10 - 2)) WORLD_POPULATION
        ∧ (calcPotentialOneInX 10 2).raw ≤ WORLD_POPULATION) := by
  have hge : WORLD_POPULATION ≤ entropyToUniqueness 34 := by
    rw [entropyToUniqueness_34]
    unfold WORLD_POPULATION
    norm_num
  exact ⟨hge, spec_C1_display_uncapped.1 34 hge, spec_C1_display_uncapped.2.1 initialState [],
    spec_C1_display_uncapped.2.2 10 2⟩

/-- C8 (counterexample): the `pixelRatio` baseline record documents a single
derived candidate study value (5.64 bits, from Panopticlick's ~2% "other"
share) but sets `bits = 2.0`, a hand-chosen conservative estimate — not the
minimum of its documented candidates. -/
theorem spec_C8_counterexample :
    (BASELINE_ENTROPY.lookup "pixelRatio").map BaselineRecord.bits = some 2
    ∧ baselineCandidates.lookup "pixelRatio" = some [5.64]
    ∧ ([(5.64 : ℚ)] : List ℚ).minimum? = some 5.64
    ∧ (BASELINE_ENTROPY.lookup "pixelRatio").map BaselineRecord.bits
        ≠ ([(5.64 : ℚ)] : List ℚ).minimum? := by
  refine ⟨?_, ?_, ?_, ?_⟩ <;> with_unfolding_all decide

set_option maxRecDepth 4000 in
/-- C8 (amended): for every baseline record with a nonempty documented
candidate list, `bits` is the minimum of the candidates — except the
`timezone` record, where the numerically lowest candidate (HitC 2018's 0.10
bits) is rejected for demographic bias and the lowest unbiased candidate
(3.04 bits) is used, and the `pixelRatio` record, where a conservative 2.0
bits is used below the single derived candidate 5.64. -/
theorem spec_C8_baseline_min :
    (∀ p ∈ baselineCandidates, p.2 ≠ [] → p.1 ≠ "timezone" → p.1 ≠ "pixelRatio" →
      (BASELINE_ENTROPY.lookup p.1).map BaselineRecord.bits = p.2.minimum?)
    ∧ baselineCandidates.lookup "timezone" = some [3.04, 3.34, 0.10]
    ∧ (BASELINE_ENTROPY.lookup "timezone").map BaselineRecord.bits = some 3.04
    ∧ ([(3.04 : ℚ), 3.34, 0.10] : List ℚ).minimum? = some 0.10
    ∧ ((0.10 : ℚ) < 3.04)
    ∧ ([(3.04 : ℚ), 3.34] : List ℚ).minimum? = some 3.04 := by
  refine ⟨?_, ?_, ?_, ?_, ?_, ?_⟩ <;> with_unfolding_all decide

/-- C8 witness: the canvas record's bits are the minimum of its two
documented candidates. -/
theorem spec_C8_witness :
    ("canvas", [(8.04 : ℚ), 8.28]) ∈ baselineCandidates
    ∧ (BASELINE_ENTROPY.lookup "canvas").map BaselineRecord.bits
        = ([(8.04 : ℚ), 8.28] : List ℚ).minimum? :=
  ⟨by with_unfolding_all decide,
   spec_C8_baseline_min.1 ("canvas", [(8.04 : ℚ), 8.28]) (by with_unfolding_all decide)
     (by with_unfolding_all decide) (by with_unfolding_all decide)
     (by with_unfolding_all decide)⟩

end Foundprint
